import Mathlib

/-!
Verification of the gloss code generator (a Gleam encoder/decoder generator
written in Rust) against its natural-language specification.

The development shallowly embeds the relevant parts of the source crates
`gloss_core` (files `generator.rs`, `config.rs`, `lib.rs`, `parser.rs`,
`backend.rs`) as executable Lean definitions: pure Rust functions become Lean
functions, the `&mut BTreeMap` import registry and `&mut bool` flags become
explicitly threaded state, and fallible functions return `Except`.

Unicode note: the Rust source uses `char::to_lowercase`, `char::to_uppercase`,
`char::is_uppercase` and `char::is_alphanumeric`.  The embedding models these
with their ASCII behaviour (which coincides with Rust's on ASCII input); all
concrete inputs considered in the theorems are ASCII.
-/

namespace Gloss

/-! ## Character helpers (ASCII models of the Rust `char` methods) -/

/-- ASCII model of Rust `char::is_lowercase` restricted to `a`..`z`. -/
def isLowerAz (c : Char) : Bool := decide (97 ≤ c.toNat ∧ c.toNat ≤ 122)

/-- ASCII model of Rust `char::is_uppercase` restricted to `A`..`Z`. -/
def isUpperAz (c : Char) : Bool := decide (65 ≤ c.toNat ∧ c.toNat ≤ 90)

/-- ASCII model of `ch.to_lowercase().next().unwrap()` from the source. -/
def charToLower (c : Char) : Char :=
  if isUpperAz c then Char.ofNat (c.toNat + 32) else c

/-- ASCII model of `ch.to_uppercase().next().unwrap()` from the source. -/
def charToUpper (c : Char) : Char :=
  if isLowerAz c then Char.ofNat (c.toNat - 32) else c

/-! ## List-of-char string utilities

`replaceAllL` models Rust `str::replace` (replace every non-overlapping
occurrence, scanning left to right); `containsSubL` models `str::contains`
for a literal pattern. -/

/-- Worker for `replaceAllL`.  Each step consumes at least one character of
`s`, so `fuel := s.length` always suffices; the fuel only makes the recursion
structural. -/
def replaceAllGo (fuel : Nat) (s pat rep : List Char) : List Char :=
  match fuel, s with
  | _, [] => []
  | 0, s => s
  | fuel + 1, c :: rest =>
    if pat ≠ [] ∧ pat.isPrefixOf (c :: rest) then
      rep ++ replaceAllGo fuel ((c :: rest).drop pat.length) pat rep
    else
      c :: replaceAllGo fuel rest pat rep

def replaceAllL (s pat rep : List Char) : List Char :=
  replaceAllGo s.length s pat rep

def containsSubL (s pat : List Char) : Bool :=
  pat.isPrefixOf s ||
    (match s with
     | [] => false
     | _ :: rest => containsSubL rest pat)

/-- Rust `str::replace` on `String`s. -/
def replaceStr (s pat rep : String) : String := ⟨replaceAllL s.data pat.data rep.data⟩

/-- Rust `str::contains` (literal pattern) on `String`s. -/
def containsStr (s pat : String) : Bool := containsSubL s.data pat.data

/-! ## Case conversion (embedded from `generator.rs` and `config.rs`)

`to_snake_case` / `to_camel_case` are the generator's conversions
(`generator.rs`); `to_snake_case_name` in `config.rs` is textually the same
algorithm (it pushes every char of the lowercase expansion, which for the
ASCII model coincides), so one definition embeds both. -/

/-- The loop of `to_snake_case`, for positions `i > 0`. -/
def toSnakeGo : List Char → List Char
  | [] => []
  | c :: rest =>
    (if isUpperAz c then ['_', charToLower c] else [c]) ++ toSnakeGo rest

/-- `to_snake_case` from `generator.rs` (the `i = 0` iteration emits no
underscore). -/
def toSnakeL (s : List Char) : List Char :=
  match s with
  | [] => []
  | c :: rest => (if isUpperAz c then [charToLower c] else [c]) ++ toSnakeGo rest

/-- The loop of `to_camel_case`, for positions `i > 0`, carrying the
`capitalize_next` flag. -/
def toCamelGo (capitalizeNext : Bool) : List Char → List Char
  | [] => []
  | c :: rest =>
    if c = '_' then toCamelGo true rest
    else if capitalizeNext then charToUpper c :: toCamelGo false rest
    else c :: toCamelGo false rest

/-- `to_camel_case` from `generator.rs` (the `i = 0` iteration lowercases
unless the char is an underscore). -/
def toCamelL (s : List Char) : List Char :=
  match s with
  | [] => []
  | c :: rest =>
    if c = '_' then toCamelGo true rest
    else charToLower c :: toCamelGo false rest

def to_snake_case (s : String) : String := ⟨toSnakeL s.data⟩

def to_camel_case (s : String) : String := ⟨toCamelL s.data⟩

inductive FieldNamingConvention where
  | SnakeCase
  | CamelCase
deriving DecidableEq, Repr

/-- `convert_field_name` from `generator.rs`. -/
def convert_field_name (field_name : String) (naming : FieldNamingConvention) : String :=
  match naming with
  | .SnakeCase => field_name
  | .CamelCase => to_camel_case field_name

/-! ## Specification-side camelCase (refinement model for claim C5)

Written from the spec's words: "lowercase the first character of the label,
delete every underscore, and uppercase the character that follows each
deleted underscore".  A kept character is uppercased exactly when the
character immediately before it in the original label is an underscore. -/

/-- Processes the characters after the first; `prev` is the original character
immediately before the current one. -/
def specCamelAux (prev : Char) : List Char → List Char
  | [] => []
  | c :: rest =>
    if c = '_' then specCamelAux c rest
    else (if prev = '_' then charToUpper c else c) :: specCamelAux c rest

/-- The spec's camelCase transformation: the label's first character is
lowercased (and deleted if it is itself an underscore), every underscore is
deleted, and each character following a deleted underscore is uppercased. -/
def specCamelL (s : List Char) : List Char :=
  match s with
  | [] => []
  | c :: rest =>
    if c = '_' then specCamelAux '_' rest
    else charToLower c :: specCamelAux c rest

def spec_camel_case (s : String) : String := ⟨specCamelL s.data⟩

/-! ## Round-trip snake → camel → snake (claim C10) -/

/-- The strings of claim C10: only ASCII lowercase letters and underscores,
not beginning with an underscore, every underscore immediately followed by a
lowercase letter.  `snakeOkTail` is the condition with the leading-underscore
restriction dropped (used for the induction). -/
def snakeOkTail : List Char → Bool
  | [] => true
  | c :: rest =>
    if c = '_' then
      match rest with
      | [] => false
      | d :: _ => isLowerAz d && snakeOkTail rest
    else isLowerAz c && snakeOkTail rest

def goodSnakeL (l : List Char) : Bool :=
  match l with
  | [] => true
  | c :: _ => decide (c ≠ '_') && snakeOkTail l

def goodSnake (s : String) : Bool := goodSnakeL s.data

/-! ## Configuration (embedded from `config.rs`) -/

inductive AbsentFieldMode where
  | ErrorIfAbsent
  | MaybeAbsent
deriving DecidableEq, Repr

structure OutputConfig where
  directory : Option String
  generated_file_naming : String
  separate_files : Bool
  separate_encoder_decoder : Bool
  encode_module_naming : String
  decode_module_naming : String
deriving DecidableEq, Repr

def default_generated_file_naming : String := "\x7bmodule\x7d_gloss.gleam"

def default_separate_files : Bool := true

def default_separate_encoder_decoder : Bool := false

def default_encode_module_naming : String := "encode_\x7bmodule\x7d.gleam"

def default_decode_module_naming : String := "decode_\x7bmodule\x7d.gleam"

def OutputConfig.default : OutputConfig :=
  { directory := none
    generated_file_naming := default_generated_file_naming
    separate_files := default_separate_files
    separate_encoder_decoder := default_separate_encoder_decoder
    encode_module_naming := default_encode_module_naming
    decode_module_naming := default_decode_module_naming }

structure FnNamingConfig where
  encoder_function_naming : String
  decoder_function_naming : String
deriving DecidableEq, Repr

def default_encoder_function_naming : String := "\x7btype_snake\x7d_to_\x7bbackend\x7d"

def default_decoder_function_naming : String := "\x7btype_snake\x7d_decoder"

def FnNamingConfig.default : FnNamingConfig :=
  { encoder_function_naming := default_encoder_function_naming
    decoder_function_naming := default_decoder_function_naming }

structure Config where
  field_naming_strategy : FieldNamingConvention
  absent_field_mode : AbsentFieldMode
  decoder_unknown_variant_message : Option String
  output : OutputConfig
  fn_naming : FnNamingConfig
deriving DecidableEq, Repr

def Config.default : Config :=
  { field_naming_strategy := .SnakeCase
    absent_field_mode := .ErrorIfAbsent
    decoder_unknown_variant_message := none
    output := OutputConfig.default
    fn_naming := FnNamingConfig.default }

/-- `FnNamingConfig::merge_with` from `config.rs`. -/
def FnNamingConfig.merge_with (self other : FnNamingConfig) : FnNamingConfig :=
  { encoder_function_naming :=
      if other.encoder_function_naming ≠ default_encoder_function_naming then
        other.encoder_function_naming
      else
        self.encoder_function_naming
    decoder_function_naming :=
      if other.decoder_function_naming ≠ default_decoder_function_naming then
        other.decoder_function_naming
      else
        self.decoder_function_naming }

/-- `OutputConfig::merge_with` from `config.rs`. -/
def OutputConfig.merge_with (self other : OutputConfig) : OutputConfig :=
  { directory := other.directory.or self.directory
    generated_file_naming :=
      if other.generated_file_naming ≠ default_generated_file_naming then
        other.generated_file_naming
      else
        self.generated_file_naming
    separate_files := other.separate_files
    separate_encoder_decoder := other.separate_encoder_decoder
    encode_module_naming :=
      if other.encode_module_naming ≠ default_encode_module_naming then
        other.encode_module_naming
      else
        self.encode_module_naming
    decode_module_naming :=
      if other.decode_module_naming ≠ default_decode_module_naming then
        other.decode_module_naming
      else
        self.decode_module_naming }

/-- `Config::merge_with` from `config.rs`. -/
def Config.merge_with (self other : Config) : Config :=
  { field_naming_strategy := other.field_naming_strategy
    absent_field_mode := other.absent_field_mode
    decoder_unknown_variant_message :=
      other.decoder_unknown_variant_message.or self.decoder_unknown_variant_message
    output := self.output.merge_with other.output
    fn_naming := self.fn_naming.merge_with other.fn_naming }

/-! ## Function-name rendering (embedded from `config.rs`) -/

/-- `to_snake_case_name` from `config.rs`; on the ASCII model it is the same
algorithm as the generator's `to_snake_case` (the only Rust-level difference
is pushing every char of the Unicode lowercase expansion). -/
def to_snake_case_name (s : String) : String := to_snake_case s

/-- Loop of `to_pascal_case_name` from `config.rs` with its
`capitalize_next` flag (initially true). -/
def toPascalGo (capitalizeNext : Bool) : List Char → List Char
  | [] => []
  | c :: rest =>
    if c = '_' then toPascalGo true rest
    else if capitalizeNext then charToUpper c :: toPascalGo false rest
    else c :: toPascalGo false rest

def to_pascal_case_name (s : String) : String := ⟨toPascalGo true s.data⟩

/-- `render_fn_pattern` from `config.rs`. -/
def render_fn_pattern (pattern type_name : String) (backend_identifier : Option String) :
    String :=
  let rendered :=
    replaceStr
      (replaceStr (replaceStr pattern "\x7btype\x7d" type_name)
        "\x7btype_snake\x7d" (to_snake_case_name type_name))
      "\x7btype_pascal\x7d" (to_pascal_case_name type_name)
  match backend_identifier with
  | some backend =>
    replaceStr
      (replaceStr (replaceStr rendered "\x7bbackend\x7d" backend)
        "\x7bbackend_snake\x7d" (to_snake_case_name backend))
      "\x7bbackend_pascal\x7d" (to_pascal_case_name backend)
  | none =>
    replaceStr
      (replaceStr (replaceStr rendered "\x7bbackend\x7d" "")
        "\x7bbackend_snake\x7d" "")
      "\x7bbackend_pascal\x7d" ""

/-- `FnNamingConfig::render_encoder_fn_name`. -/
def FnNamingConfig.render_encoder_fn_name (self : FnNamingConfig)
    (type_name backend_identifier : String) : String :=
  render_fn_pattern self.encoder_function_naming type_name (some backend_identifier)

/-- `FnNamingConfig::render_decoder_fn_name`. -/
def FnNamingConfig.render_decoder_fn_name (self : FnNamingConfig)
    (type_name : String) : String :=
  render_fn_pattern self.decoder_function_naming type_name none

/-- `FnNamingOverride` from `config.rs`. -/
structure FnNamingOverride where
  encoder_function_naming : Option String
  decoder_function_naming : Option String
deriving DecidableEq, Repr

/-- `FnNamingConfig::apply_override`. -/
def FnNamingConfig.apply_override (self : FnNamingConfig)
    (override_cfg : FnNamingOverride) : FnNamingConfig :=
  { encoder_function_naming :=
      override_cfg.encoder_function_naming.getD self.encoder_function_naming
    decoder_function_naming :=
      override_cfg.decoder_function_naming.getD self.decoder_function_naming }

/-! ## Backend-suffix disambiguation (embedded from `generator.rs` lines
88–107 and `lib.rs` lines 458–481)

Both passes compare backends by their identifier string
(`EncoderType::identifier`), so the computations below are parametrised by
the list of identifier strings of a type's requested encoders. -/

/-- The `unique_backend_ids` accumulation loop (push if not contained). -/
def unique_backend_ids (encoder_ids : List String) : List String :=
  encoder_ids.foldl (fun acc id => if acc.contains id then acc else acc ++ [id]) []

/-- The encoder-name computation of pass 2 (`generate_encoder`,
`generator.rs` lines 90–107). -/
def encoder_fn_name_pass2 (fn_naming : FnNamingConfig)
    (type_name backend_identifier : String) (encoder_ids : List String) : String :=
  let encoder_name := fn_naming.render_encoder_fn_name type_name backend_identifier
  let uses_backend_placeholder :=
    containsStr fn_naming.encoder_function_naming "\x7bbackend"
  let unique := unique_backend_ids encoder_ids
  if unique.length > 1 && !uses_backend_placeholder then
    encoder_name ++ "_" ++ backend_identifier
  else
    encoder_name

/-- The per-backend encoder names registered by pass 1 (`generate_for_project`,
`lib.rs` lines 458–481), as (backend id, canonical name) pairs. -/
def encoder_fn_names_pass1 (fn_naming : FnNamingConfig)
    (type_name : String) (encoder_ids : List String) : List (String × String) :=
  let unique := unique_backend_ids encoder_ids
  let multi_backend := unique.length > 1
  let uses_backend_placeholder :=
    containsStr fn_naming.encoder_function_naming "\x7bbackend"
  unique.map (fun backend_id =>
    let fn_name := fn_naming.render_encoder_fn_name type_name backend_id
    (backend_id,
      if multi_backend && !uses_backend_placeholder then
        fn_name ++ "_" ++ backend_id
      else
        fn_name))

/-- Decidable equality for `Except`, used to evaluate concrete generator
results inside proofs. -/
instance {e a : Type} [DecidableEq e] [DecidableEq a] : DecidableEq (Except e a) :=
  fun x y =>
    match x, y with
    | .ok v, .ok w => decidable_of_iff (v = w) (by simp)
    | .error v, .error w => decidable_of_iff (v = w) (by simp)
    | .ok _, .error _ => isFalse (by simp)
    | .error _, .ok _ => isFalse (by simp)

/-! ## Errors, imports and aliases (embedded from `lib.rs`) -/

inductive GlossError where
  | ParseError (msg : String)
  | IoError (msg : String)
  | GleamError (msg : String)
  | GenerationError (msg : String)
deriving DecidableEq, Repr

/-- `ImportEntry` from `lib.rs`; the source field `alias` is called
`aliasName` here because `alias` is a Lean keyword. -/
structure ImportEntry where
  module_path : String
  aliasName : String
  values : List String
  types : List String
deriving DecidableEq, Repr

/-- `ImportEntry::new`. -/
def ImportEntry.new (module_path : String) (alias_name : String) : ImportEntry :=
  { module_path := module_path, aliasName := alias_name, values := [], types := [] }

/-- `module_alias` from `lib.rs` (ASCII model of `char::is_alphanumeric`). -/
def module_alias (module_path : String) : String :=
  let a : String :=
    ⟨module_path.data.map (fun c => if c.isAlphanum then c else '_')⟩
  if a = "" then "module" else a

/-- Lexicographic order on strings by character code (the order of Rust's
`Ord` for `String` on ASCII data), used to model `BTreeMap` key order. -/
def charListLt : List Char → List Char → Bool
  | [], [] => false
  | [], _ :: _ => true
  | _ :: _, [] => false
  | a :: as, b :: bs =>
    if a.toNat < b.toNat then true
    else if b.toNat < a.toNat then false
    else charListLt as bs

def strLtB (a b : String) : Bool := charListLt a.data b.data

def strLeB (a b : String) : Bool := strLtB a b || a = b

/-- The generator's `BTreeMap<String, ImportEntry>`, as a key-sorted
association list. -/
abbrev Imports := List (String × ImportEntry)

def imports_lookup (k : String) : Imports → Option ImportEntry
  | [] => none
  | (k0, v0) :: rest => if k = k0 then some v0 else imports_lookup k rest

def imports_insert (k : String) (v : ImportEntry) : Imports → Imports
  | [] => [(k, v)]
  | (k0, v0) :: rest =>
    if strLtB k k0 then (k, v) :: (k0, v0) :: rest
    else if k = k0 then (k, v) :: rest
    else (k0, v0) :: imports_insert k v rest

/-- `ensure_import` / `ensure_import_entry` from `generator.rs`: return the
alias for a module, inserting a fresh entry if the module is not yet
imported. -/
def ensure_import (imports : Imports) (module_path : String) : String × Imports :=
  match imports_lookup module_path imports with
  | some entry => (entry.aliasName, imports)
  | none =>
    let a := module_alias module_path
    (a, imports_insert module_path (ImportEntry.new module_path a) imports)

/-- A unit's import map conflicts when some entry binds the alias `option`
to a module other than `gleam/option`. -/
def optionAliasConflict (entry : ImportEntry) : Prop :=
  entry.aliasName = "option" ∧ entry.module_path ≠ "gleam/option"

instance (entry : ImportEntry) : Decidable (optionAliasConflict entry) := by
  unfold optionAliasConflict
  infer_instance

/-- `ensure_no_option_alias_conflict` from `lib.rs`. -/
def ensure_no_option_alias_conflict : Imports → Except GlossError Unit
  | [] => .ok ()
  | (_, entry) :: rest =>
    if optionAliasConflict entry then
      .error (.GenerationError
        ("Cannot generate code because import alias `option` is already used for `" ++
          entry.module_path ++
          "`. Rename the conflicting import or its alias before running gloss."))
    else
      ensure_no_option_alias_conflict rest

/-! ## Encoder backends and the dependency check (embedded from
`backend.rs` and `lib.rs`) -/

/-- The `EncoderBackend` trait as a record of its capabilities. -/
structure EncoderBackend where
  name : String
  module_imports : List String
  return_type : String
  encode_object : String → List (String × String) → String → String
  encode_empty_object : String → String
  encode_string_literal : String → String
  encode_string : String → String
  encode_int : String → String
  encode_float : String → String
  encode_bool : String → String
  encode_nullable : String → String → String
  encode_array : String → String → String
  required_packages : List String

/-- `JsonEncoderBackend` from `backend.rs` (alias `json`, return type
`json.Json`). -/
def jsonQualify (fn_name : String) : String := "json." ++ fn_name

def jsonEncodeObjectEntries (indent : String) (fields : List (String × String)) : String :=
  String.intercalate ",\n"
    (fields.map (fun kv =>
      indent ++ "  #(\"" ++ kv.1 ++ "\", " ++ kv.2 ++ ")"))

def jsonBackend : EncoderBackend :=
  { name := "json"
    module_imports := ["import gleam/json"]
    return_type := jsonQualify "Json"
    encode_object := fun indent fields closing_indent =>
      if fields = [] then
        closing_indent ++ jsonQualify "object" ++ "([])"
      else
        closing_indent ++ jsonQualify "object" ++ "([\n" ++
          jsonEncodeObjectEntries indent fields ++ "\n" ++ closing_indent ++ "])"
    encode_empty_object := fun indent => indent ++ jsonQualify "object" ++ "([])"
    encode_string_literal := fun value => "json.string(\"" ++ value ++ "\")"
    encode_string := fun value_expr => jsonQualify "string" ++ "(" ++ value_expr ++ ")"
    encode_int := fun value_expr => jsonQualify "int" ++ "(" ++ value_expr ++ ")"
    encode_float := fun value_expr => jsonQualify "float" ++ "(" ++ value_expr ++ ")"
    encode_bool := fun value_expr => jsonQualify "bool" ++ "(" ++ value_expr ++ ")"
    encode_nullable := fun value_expr inner =>
      jsonQualify "nullable" ++ "(" ++ value_expr ++ ", " ++ inner ++ ")"
    encode_array := fun value_expr inner =>
      jsonQualify "array" ++ "(" ++ value_expr ++ ", " ++ inner ++ ")"
    required_packages := ["gleam/json"] }

/-- The parsed `gleam.toml` manifest: the key sets of its primary and dev
dependency tables (loading and TOML parsing are collaborator I/O). -/
structure GleamManifest where
  dependencies : List String
  dev_dependencies : List String
deriving DecidableEq, Repr

/-- `dependency_table_contains` from `lib.rs`. -/
def dependency_table_contains (table : List String) (crate_name : String) : Bool :=
  table.contains crate_name

/-- The per-package loop of `ensure_backend_dependencies` from `lib.rs`. -/
def ensure_required_packages (manifest : GleamManifest) :
    List String → Except GlossError Unit
  | [] => .ok ()
  | package :: rest =>
    let present :=
      dependency_table_contains manifest.dependencies package ||
        dependency_table_contains manifest.dev_dependencies package
    if present then
      ensure_required_packages manifest rest
    else
      .error (.GenerationError
        ("Generating encoders requires the `" ++ package ++
          "` dependency. Add `" ++ package ++
          " = \"~> 1\"` (or your preferred version) to gleam.toml."))

/-- `ensure_backend_dependencies` from `lib.rs`, for a project whose
`gleam.toml` exists and parses (the manifest is an input; reading the file is
collaborator I/O). -/
def ensure_backend_dependencies (manifest : GleamManifest)
    (backend : EncoderBackend) : Except GlossError Unit :=
  if backend.required_packages = [] then
    .ok ()
  else
    ensure_required_packages manifest backend.required_packages

/-! ## Parsed-declaration data model (embedded from `parser.rs`) -/

inductive EncoderType where
  | Json
deriving DecidableEq, Repr

/-- `EncoderType::identifier`. -/
def EncoderType.identifier : EncoderType → String
  | .Json => "json"

inductive TypeExpression where
  | Constructor (module : Option String) (name : String) (arguments : List TypeExpression)
  | Tuple (elements : List TypeExpression)
  | Function (arguments : List TypeExpression) (return_type : TypeExpression)
  | Var (name : String)
  | Hole
deriving Repr

inductive FieldMarker where
  | Required
  | Optional
  | Default
deriving DecidableEq, Repr

structure FieldInfo where
  label : String
  type_ : String
  type_expr : TypeExpression
  is_option : Bool
  marker : FieldMarker
  custom_name : Option String
  decoder_with : Option String
  encoder_with : Option String
deriving Repr

structure ConstructorInfo where
  name : String
  fields : List FieldInfo
deriving Repr

structure OutputOverride where
  directory : Option String
  separate_encoder_decoder : Option Bool
  encode_module_naming : Option String
  decode_module_naming : Option String
  generated_file_naming : Option String
deriving DecidableEq, Repr

inductive PathMode where
  | FileRelative
  | ProjectRelative
deriving DecidableEq, Repr

structure OptionAvailability where
  unqualified : Bool
  aliases : List String
deriving DecidableEq, Repr

structure CustomTypeInfo where
  name : String
  constructors : List ConstructorInfo
  encoders : List EncoderType
  generate_decoder : Bool
  field_naming_strategy : Option FieldNamingConvention
  module_name : String
  module_path : String
  type_tag_field : Option String
  disable_type_tag : Bool
  output_override : Option OutputOverride
  unknown_variant_message : Option String
  fn_naming_override : Option FnNamingOverride
  option_availability : OptionAvailability
deriving Repr

structure FileConfig where
  output_override : Option OutputOverride
  unknown_variant_message : Option String
  fn_naming_override : Option FnNamingOverride
deriving DecidableEq, Repr

/-- The `is_option` computation of `extract_field_info` (`parser.rs`): the
declared type is literally the `gleam/option` `Option` wrapper. -/
def isOptionTypeExpr : TypeExpression → Bool
  | .Constructor (some module_path) name _ =>
    name = "Option" && module_path = "gleam/option"
  | _ => false

/-! ## Encoding planner (embedded from `generator.rs`) -/

inductive EncodingMode where
  | PlainString
  | ObjectWithTypeTag
  | ObjectWithNoTypeTag
deriving DecidableEq, Repr

/-- `determine_encoding_mode` from `generator.rs`. -/
def determine_encoding_mode (constructors : List ConstructorInfo)
    (type_info : CustomTypeInfo) : EncodingMode :=
  if type_info.disable_type_tag then
    .ObjectWithNoTypeTag
  else
    match constructors with
    | [constructor] =>
      if constructor.fields.isEmpty then .PlainString else .ObjectWithNoTypeTag
    | cs =>
      if cs.all (fun c => c.fields.isEmpty) then .PlainString
      else .ObjectWithTypeTag

/-! ## Type registry (embedded from `lib.rs`) -/

structure TypeRegistryEntry where
  module_path : String
  generates_decoder : Bool
  decoder_fn_name : Option String
  encoder_fn_names : List (String × String)
deriving DecidableEq, Repr

/-- `TypeRegistry = HashMap<String, HashMap<String, TypeRegistryEntry>>`,
as a nested association list. -/
abbrev TypeRegistry := List (String × List (String × TypeRegistryEntry))

/-- `TypeLookup = HashMap<(String, String), CustomTypeInfo>`. -/
abbrev TypeLookup := List ((String × String) × CustomTypeInfo)

def assocFind {α : Type} (k : String) : List (String × α) → Option α
  | [] => none
  | (k0, v) :: rest => if k = k0 then some v else assocFind k rest

def lookup_get (type_lookup : TypeLookup) (key : String × String) : Option CustomTypeInfo :=
  match type_lookup with
  | [] => none
  | (k0, v) :: rest => if key = k0 then some v else lookup_get rest key

/-- Splits a char list on a separator (model of Rust `str::split`). -/
def splitOnCharAux (sep : Char) : List Char → List Char → List (List Char)
  | [], acc => [acc.reverse]
  | c :: rest, acc =>
    if c = sep then acc.reverse :: splitOnCharAux sep rest []
    else splitOnCharAux sep rest (c :: acc)

def splitOnChar (sep : Char) (l : List Char) : List (List Char) :=
  splitOnCharAux sep l []

/-- `module_path.split('/').last()` from `find_type_entry`. -/
def lastPathSegment (module_path : String) : Option String :=
  ((splitOnChar '/' module_path.data).getLast?).map (fun l => (⟨l⟩ : String))

/-- `find_type_entry` from `lib.rs`.  The Rust fallback loop iterates a
`HashMap` in unspecified order; the model iterates the association list in
order. -/
def find_type_entry (registry : TypeRegistry) (module_hint : Option String)
    (type_name : String) (current_module_path : String) : Option TypeRegistryEntry :=
  match module_hint with
  | some hint =>
    match (assocFind hint registry).bind (fun types => assocFind type_name types) with
    | some entry => some entry
    | none =>
      registry.findSome? (fun mt =>
        if mt.1 = hint ∨ lastPathSegment mt.1 = some hint then
          assocFind type_name mt.2
        else
          none)
  | none =>
    (assocFind current_module_path registry).bind (fun types => assocFind type_name types)

/-! ## Small string helpers used by the generator -/

/-- ASCII whitespace (model of Rust `char::is_whitespace` on ASCII). -/
def isWsChar (c : Char) : Bool := c = ' ' || c = '\t' || c = '\n' || c = '\r'

/-- Rust `str::trim` (ASCII model). -/
def trimStr (s : String) : String :=
  ⟨((s.data.dropWhile isWsChar).reverse.dropWhile isWsChar).reverse⟩

/-- `" ".repeat(nesting)`. -/
def spaces (nesting : Nat) : String := ⟨List.replicate nesting ' '⟩

/-- `escape_gleam_string` from `generator.rs`. -/
def escape_gleam_string (value : String) : String :=
  replaceStr (replaceStr (replaceStr value "\\" "\\\\") "\"" "\\\"") "\n" "\\n"

/-! ## Function-reference overrides (embedded from `generator.rs`) -/

structure FunctionReference where
  module_path : Option String
  function : String
deriving DecidableEq, Repr

/-- `value.rsplit_once('.')`: splits at the last dot. -/
def rsplitDotAux : List Char → List Char → Option (List Char × List Char)
  | [], _ => none
  | c :: rest, acc =>
    if c = '.' then some (rest.reverse, acc) else rsplitDotAux rest (c :: acc)

def rsplitOnceDot (s : String) : Option (String × String) :=
  (rsplitDotAux s.data.reverse []).map (fun p => ((⟨p.1⟩ : String), (⟨p.2⟩ : String)))

/-- `parse_function_reference` from `generator.rs`. -/
def parse_function_reference (value : String) : Except GlossError FunctionReference :=
  let trimmed := trimStr value
  if trimmed = "" then
    .error (.GenerationError "Function reference cannot be empty")
  else
    let mf : Option String × String :=
      match rsplitOnceDot trimmed with
      | some (module_part, function_part) =>
        if function_part ≠ "" then
          let module := trimStr module_part
          let function := trimStr function_part
          if module = "" then (none, function) else (some module, function)
        else
          (none, trimmed)
      | none => (none, trimmed)
    if mf.2 = "" then
      .error (.GenerationError ("Invalid function reference: `" ++ value ++ "`"))
    else
      .ok ⟨mf.1, mf.2⟩

/-- `render_function_path` from `generator.rs`. -/
def render_function_path (reference : FunctionReference) (imports : Imports)
    (current_module_path : String) : String × Imports :=
  match reference.module_path with
  | some module_path =>
    if module_path ≠ current_module_path then
      let (a, imports) := ensure_import imports module_path
      (a ++ "." ++ reference.function, imports)
    else
      (reference.function, imports)
  | none => (reference.function, imports)

/-- `resolve_decoder_override` from `generator.rs`. -/
def resolve_decoder_override (value : String) (imports : Imports)
    (current_module_path : String) : Except GlossError (String × Imports) := do
  let reference ← parse_function_reference value
  let (path, imports) := render_function_path reference imports current_module_path
  .ok (path ++ "()", imports)

/-- `resolve_encoder_override` from `generator.rs`. -/
def resolve_encoder_override (value argument : String) (imports : Imports)
    (current_module_path : String) : Except GlossError (String × Imports) := do
  let reference ← parse_function_reference value
  let (path, imports) := render_function_path reference imports current_module_path
  .ok (path ++ "(" ++ argument ++ ")", imports)

/-! ## Per-type value codecs (embedded from `generator.rs`) -/

/-- The primitive/registry tail of `generate_type_decoder` (the `match
name_str` after the `Option`/`List` structural cases). -/
def generate_type_decoder_named (registry : TypeRegistry) (current_module_path : String)
    (module : Option String) (name : String) (imports : Imports) :
    Except GlossError (String × Imports) :=
  if name = "String" then .ok ("decode.string", imports)
  else if name = "Int" then .ok ("decode.int", imports)
  else if name = "Float" then .ok ("decode.float", imports)
  else if name = "Bool" then .ok ("decode.bool", imports)
  else
    match find_type_entry registry module name current_module_path with
    | some entry =>
      if ¬ entry.generates_decoder then
        .error (.GenerationError
          ("Decoder requested for type `" ++ name ++
            "` but gloss is not generating one. Provide `decoder_with` override."))
      else
        let decoder_name := entry.decoder_fn_name.getD (to_snake_case name ++ "_decoder")
        if entry.module_path = current_module_path then
          .ok (decoder_name ++ "()", imports)
        else
          let (a, imports) := ensure_import imports entry.module_path
          .ok (a ++ "." ++ decoder_name ++ "()", imports)
    | none =>
      .error (.GenerationError
        ("Unable to determine decoder for type `" ++ name ++
          "`. Add a gloss annotation for that type or specify `decoder_with`."))

/-- `generate_type_decoder` from `generator.rs`. -/
def generate_type_decoder (registry : TypeRegistry) (current_module_path : String) :
    TypeExpression → Option String → Imports → Except GlossError (String × Imports)
  | type_expr, override_fn, imports =>
    match override_fn with
    | some override_path => resolve_decoder_override override_path imports current_module_path
    | none =>
      match type_expr with
      | .Constructor module name arguments =>
        match arguments with
        | inner_arg :: _ =>
          if name = "Option" ∧ module = some "gleam/option" then do
            let (inner, imports) ←
              generate_type_decoder registry current_module_path inner_arg none imports
            .ok ("decode.optional(" ++ inner ++ ")", imports)
          else if name = "List" then do
            let (inner, imports) ←
              generate_type_decoder registry current_module_path inner_arg none imports
            .ok ("decode.list(" ++ inner ++ ")", imports)
          else
            generate_type_decoder_named registry current_module_path module name imports
        | [] => generate_type_decoder_named registry current_module_path module name imports
      | .Var name =>
        .error (.GenerationError
          ("Cannot derive decoder for generic field `" ++ name ++
            "`. Provide `decoder_with` override."))
      | .Tuple _ =>
        .error (.GenerationError
          "Cannot derive decoder for complex type expression. Provide `decoder_with` override.")
      | .Function _ _ =>
        .error (.GenerationError
          "Cannot derive decoder for complex type expression. Provide `decoder_with` override.")
      | .Hole =>
        .error (.GenerationError
          "Cannot derive decoder for complex type expression. Provide `decoder_with` override.")

/-- `generate_type_encoder` from `generator.rs` (not recursive: the
`Option`/`List` branches emit placeholder inner encoders). -/
def generate_type_encoder (registry : TypeRegistry) (current_module_path : String)
    (backend : EncoderBackend) (encoder_type : EncoderType)
    (var_name : String) (type_expr : TypeExpression) (override_fn : Option String)
    (imports : Imports) : Except GlossError (String × Imports) :=
  match override_fn with
  | some override_path =>
    resolve_encoder_override override_path var_name imports current_module_path
  | none =>
    match type_expr with
    | .Constructor module name arguments =>
      if name = "Option" ∧ module = some "gleam/option" ∧ arguments.isEmpty = false then
        .ok (backend.encode_nullable var_name "_", imports)
      else if name = "List" ∧ arguments.isEmpty = false then
        .ok (backend.encode_array var_name "_", imports)
      else if name = "String" then .ok (backend.encode_string var_name, imports)
      else if name = "Int" then .ok (backend.encode_int var_name, imports)
      else if name = "Float" then .ok (backend.encode_float var_name, imports)
      else if name = "Bool" then .ok (backend.encode_bool var_name, imports)
      else
        match find_type_entry registry module name current_module_path with
        | some entry =>
          let backend_id := encoder_type.identifier
          match assocFind backend_id entry.encoder_fn_names with
          | none =>
            .error (.GenerationError
              ("Encoder requested for type `" ++ name ++ "` with backend `" ++
                backend_id ++
                "` but gloss is not generating one. Provide `encoder_with` override."))
          | some encoder_name =>
            if entry.module_path = current_module_path then
              .ok (encoder_name ++ "(" ++ var_name ++ ")", imports)
            else
              let (a, imports) := ensure_import imports entry.module_path
              .ok (a ++ "." ++ encoder_name ++ "(" ++ var_name ++ ")", imports)
        | none =>
          .error (.GenerationError
            ("Unable to determine encoder for type `" ++ name ++
              "`. Add a gloss annotation for that type or specify `encoder_with`."))
    | .Var name =>
      .error (.GenerationError
        ("Cannot derive encoder for generic field `" ++ name ++
          "`. Provide `encoder_with` override."))
    | .Tuple _ =>
      .error (.GenerationError
        "Cannot derive encoder for complex type expression. Provide `encoder_with` override.")
    | .Function _ _ =>
      .error (.GenerationError
        "Cannot derive encoder for complex type expression. Provide `encoder_with` override.")
    | .Hole =>
      .error (.GenerationError
        "Cannot derive encoder for complex type expression. Provide `encoder_with` override.")

/-! ## Default-value synthesizer (embedded from `generator.rs`)

The Rust functions recurse through the `TypeLookup` guarded by a `visited`
set (inserted on entry, removed on exit; the early `None` returns leave the
key in the set, which the model reproduces).  The recursion is presented
structurally on a fuel counter consumed once per descent into a named type;
`default_value_for_type` supplies `lookup size + 1`, which theorem
`build_default_fuel_sufficient` (claim C9) proves can never be exhausted. -/

structure SynthState where
  imports : Imports
  uses_option_helpers : Bool
  visited : List (String × String)
deriving Repr

/-- The recursive-descent callback: `build_default_for_custom_type` one fuel
level down. -/
abbrev DescendFn :=
  String → String → String → TypeLookup → SynthState →
    Except Unit (Option String × SynthState)

/-- `panic_default_message` from `generator.rs`. -/
def panic_default_message (subject : String) : String :=
  "panic(\"" ++ escape_gleam_string ("No default value for " ++ subject) ++ "\")"

/-- `constructor_argument` from `generator.rs`. -/
def constructor_argument (field : FieldInfo) (value : String) : String :=
  if "_unlabeled".data.isPrefixOf field.label.data then value
  else field.label ++ ": " ++ value

mutual

/-- `default_value_for_type_expr` from `generator.rs`, parametrised by the
descent callback `bd`. -/
def default_value_for_type_expr (bd : DescendFn) (current_module context_module : String)
    (type_lookup : TypeLookup) : TypeExpression → SynthState →
      Except Unit (String × SynthState)
  | .Constructor module name arguments, st =>
    let module_path := module.getD current_module
    if name = "String" then .ok ("\"\"", st)
    else if name = "Int" then .ok ("0", st)
    else if name = "Float" then .ok ("0.0", st)
    else if name = "Bool" then .ok ("False", st)
    else if name = "List" ∧ arguments.length = 1 then .ok ("[]", st)
    else if name = "Option" ∧ arguments.length = 1 ∧ module = some "gleam/option" then
      .ok ("option.None", { st with uses_option_helpers := true })
    else
      let display_name :=
        if module_path = context_module then name
        else replaceStr module_path "/" "." ++ "." ++ name
      match bd module_path name context_module type_lookup st with
      | .ok (some s, st) => .ok (s, st)
      | .ok (none, st) => .ok (panic_default_message display_name, st)
      | .error e => .error e
  | .Tuple elements, st => do
    let (values, st) ←
      default_tuple_values bd current_module context_module type_lookup elements st
    .ok ("#(" ++ String.intercalate ", " values ++ ")", st)
  | .Function _ _, st => .ok (panic_default_message "function", st)
  | .Var _, st => .ok (panic_default_message "type variable", st)
  | .Hole, st => .ok (panic_default_message "type hole", st)

/-- The `elements.iter().map(...)` loop of the `Tuple` branch. -/
def default_tuple_values (bd : DescendFn) (current_module context_module : String)
    (type_lookup : TypeLookup) : List TypeExpression → SynthState →
      Except Unit (List String × SynthState)
  | [], st => .ok ([], st)
  | e :: rest, st => do
    let (v, st) ← default_value_for_type_expr bd current_module context_module type_lookup e st
    let (vs, st) ← default_tuple_values bd current_module context_module type_lookup rest st
    .ok (v :: vs, st)

end


/-- The `constructor.fields.iter().map(...)` loop of
`build_constructor_expression`. -/
def default_field_values (bd : DescendFn) (constructor_module context_module : String)
    (type_lookup : TypeLookup) : List FieldInfo → SynthState →
      Except Unit (List String × SynthState)
  | [], st => .ok ([], st)
  | field :: rest, st => do
    let (value, st) ←
      default_value_for_type_expr bd constructor_module context_module type_lookup
        field.type_expr st
    let (vs, st) ←
      default_field_values bd constructor_module context_module type_lookup rest st
    .ok (constructor_argument field value :: vs, st)

/-- `build_constructor_expression` from `generator.rs`. -/
def build_constructor_expression (bd : DescendFn) (constructor : ConstructorInfo)
    (constructor_module context_module : String) (type_lookup : TypeLookup)
    (st : SynthState) : Except Unit (String × SynthState) :=
  let ps : String × SynthState :=
    if constructor_module = context_module then (constructor.name, st)
    else
      let ai := ensure_import st.imports constructor_module
      (ai.1 ++ "." ++ constructor.name, { st with imports := ai.2 })
  let prefixStr := ps.1
  let st := ps.2
  if constructor.fields.isEmpty then .ok (prefixStr, st)
  else do
    let (field_values, st) ←
      default_field_values bd constructor_module context_module type_lookup
        constructor.fields st
    .ok (prefixStr ++ "(" ++ String.intercalate ", " field_values ++ ")", st)

/-- `build_default_for_custom_type` from `generator.rs`: visited-guarded
descent keyed by (module, type name); first declared constructor; the key is
removed again on successful exit.  Fuel is consumed once per descent. -/
def build_default_for_custom_type : Nat → String → String → String → TypeLookup →
    SynthState → Except Unit (Option String × SynthState)
  | 0, _, _, _, _, _ => .error ()
  | fuel + 1, target_module, type_name, context_module, type_lookup, st =>
    let key := (target_module, type_name)
    if st.visited.contains key then .ok (none, st)
    else
      let st := { st with visited := key :: st.visited }
      match lookup_get type_lookup key with
      | none => .ok (none, st)
      | some type_info =>
        match type_info.constructors.head? with
        | none => .ok (none, st)
        | some constructor =>
          match
            build_constructor_expression (build_default_for_custom_type fuel)
              constructor target_module context_module type_lookup st
          with
          | .ok (expression, st) =>
            .ok (some expression, { st with visited := st.visited.erase key })
          | .error e => .error e

/-- `default_value_for_type` from `generator.rs` (fresh `visited`, fuel
`lookup size + 1`; the fuel-exhausted branch is proved unreachable by claim
C9 and falls back to the same placeholder as the `None` result). -/
def default_value_for_type (type_info : CustomTypeInfo) (type_lookup : TypeLookup)
    (imports : Imports) (uses_option_helpers : Bool) : String × Imports × Bool :=
  let st : SynthState := ⟨imports, uses_option_helpers, []⟩
  match
    build_default_for_custom_type (type_lookup.length + 1) type_info.module_path
      type_info.name type_info.module_path type_lookup st
  with
  | .ok (res, st) =>
    (res.getD (panic_default_message type_info.name), st.imports, st.uses_option_helpers)
  | .error _ => (panic_default_message type_info.name, imports, uses_option_helpers)


/-! ## Field and constructor decoders (embedded from `generator.rs`) -/

/-- The `is_optional_field` decision inside `generate_field_decoder`
(`generator.rs` lines 318–325). -/
def is_optional_field (marker : FieldMarker) (absent_field_mode : AbsentFieldMode)
    (is_option : Bool) : Bool :=
  match marker with
  | .Optional => true
  | .Required => false
  | .Default =>
    match absent_field_mode with
    | .MaybeAbsent => is_option
    | .ErrorIfAbsent => false

/-- `generate_field_decoder` from `generator.rs`.  Returns the decoder line
together with the threaded imports and `uses_option_helpers` flag. -/
def generate_field_decoder (field : FieldInfo) (field_naming : FieldNamingConvention)
    (config : Config) (registry : TypeRegistry) (current_module_path : String)
    (nesting : Nat) (imports : Imports) (uses_option_helpers : Bool) :
    Except GlossError (String × Imports × Bool) := do
  let json_field_name :=
    match field.custom_name with
    | some name => name
    | none => convert_field_name field.label field_naming
  let (type_decoder, imports) ←
    generate_type_decoder registry current_module_path field.type_expr
      field.decoder_with imports
  let indent := spaces nesting
  if is_optional_field field.marker config.absent_field_mode field.is_option then
    .ok (indent ++ "use " ++ field.label ++ " <- decode.optional_field(\"" ++
        json_field_name ++ "\", option.None, " ++ type_decoder ++ ")",
      imports, true)
  else
    .ok (indent ++ "use " ++ field.label ++ " <- decode.field(\"" ++
        json_field_name ++ "\", " ++ type_decoder ++ ")",
      imports, uses_option_helpers)

/-- The `for field in &constructor.fields` loop of
`generate_single_constructor_decoder`. -/
def generate_field_decoders (field_naming : FieldNamingConvention) (config : Config)
    (registry : TypeRegistry) (current_module_path : String) (nesting : Nat) :
    List FieldInfo → Imports → Bool → Except GlossError (List String × Imports × Bool)
  | [], imports, uses => .ok ([], imports, uses)
  | field :: rest, imports, uses => do
    let (s, imports, uses) ←
      generate_field_decoder field field_naming config registry current_module_path
        nesting imports uses
    let (ss, imports, uses) ←
      generate_field_decoders field_naming config registry current_module_path nesting
        rest imports uses
    .ok (s :: ss, imports, uses)

/-- `generate_single_constructor_decoder` from `generator.rs`. -/
def generate_single_constructor_decoder (constructor : ConstructorInfo)
    (mode : EncodingMode) (field_naming : FieldNamingConvention) (config : Config)
    (registry : TypeRegistry) (current_module_path : String) (nesting : Nat)
    (imports : Imports) (uses_option_helpers : Bool) :
    Except GlossError (String × Imports × Bool) :=
  let constructor_name := constructor.name
  if mode = .PlainString then
    .ok ("\x7b\n  decode.success(" ++ constructor_name ++ ")\n\x7d",
      imports, uses_option_helpers)
  else if constructor.fields.isEmpty then
    .ok ("\x7b\n  decode.success(" ++ constructor_name ++ ")\n\x7d",
      imports, uses_option_helpers)
  else do
    let (field_decoders, imports, uses) ←
      generate_field_decoders field_naming config registry current_module_path
        (nesting + 2) constructor.fields imports uses_option_helpers
    let field_names := constructor.fields.map (fun f => f.label ++ ":")
    let decoders := String.intercalate "\n" field_decoders
    let indent := spaces nesting
    .ok ("\x7b\n" ++ decoders ++ "\n" ++ indent ++ "  decode.success(" ++
        constructor_name ++ "(" ++ String.intercalate ", " field_names ++ "))\n" ++
        indent ++ "\x7d",
      imports, uses)

/-- The `for constructor in constructors` loop of
`generate_multi_constructor_decoder`. -/
def generate_decoder_cases (mode : EncodingMode) (field_naming : FieldNamingConvention)
    (config : Config) (registry : TypeRegistry) (current_module_path : String) :
    List ConstructorInfo → Imports → Bool →
      Except GlossError (List String × Imports × Bool)
  | [], imports, uses => .ok ([], imports, uses)
  | constructor :: rest, imports, uses => do
    let tag := to_snake_case constructor.name
    let (body, imports, uses) ←
      generate_single_constructor_decoder constructor mode field_naming config registry
        current_module_path 4 imports uses
    let (cases, imports, uses) ←
      generate_decoder_cases mode field_naming config registry current_module_path rest
        imports uses
    .ok (("    \"" ++ tag ++ "\" -> " ++ trimStr body) :: cases, imports, uses)

/-- `generate_multi_constructor_decoder` from `generator.rs`. -/
def generate_multi_constructor_decoder (constructors : List ConstructorInfo)
    (mode : EncodingMode) (field_naming : FieldNamingConvention)
    (type_tag_field : String) (config : Config) (registry : TypeRegistry)
    (current_module_path : String) (default_value_expr expected_message : String)
    (imports : Imports) (uses_option_helpers : Bool) :
    Except GlossError (String × Imports × Bool) := do
  let discriminant :=
    if mode = .PlainString then
      "use variant <- decode.then(decode.string)"
    else
      "use variant <- decode.field(\"" ++ type_tag_field ++ "\", decode.string)"
  let (cases, imports, uses) ←
    generate_decoder_cases mode field_naming config registry current_module_path
      constructors imports uses_option_helpers
  let cases_str := String.intercalate "\n" cases
  let failure_message := escape_gleam_string expected_message
  .ok ("\x7b\n  " ++ discriminant ++ "\n  case variant \x7b\n" ++ cases_str ++
      "\n    _ -> decode.failure(" ++ default_value_expr ++ ", \"" ++
      failure_message ++ "\")\n  \x7d\n\x7d",
    imports, uses)

/-- Ascending insertion used to model `Vec::sort` on strings. -/
def insertStrSorted (s : String) : List String → List String
  | [] => [s]
  | x :: rest => if strLeB s x then s :: x :: rest else x :: insertStrSorted s rest

def sortStrings : List String → List String
  | [] => []
  | x :: rest => insertStrSorted x (sortStrings rest)

/-- `Vec::dedup` (removes consecutive duplicates). -/
def dedupAdjacent : List String → List String
  | [] => []
  | [x] => [x]
  | x :: y :: rest =>
    if x = y then dedupAdjacent (y :: rest) else x :: dedupAdjacent (y :: rest)

/-- `format_expected_variants` from `generator.rs`. -/
def format_expected_variants (constructors : List ConstructorInfo) : String :=
  let tags := dedupAdjacent
    (sortStrings (constructors.map (fun c => to_snake_case c.name)))
  match tags with
  | [] => "value"
  | [t] => t
  | ts => "one of " ++ String.intercalate ", " ts

/-- `format_unknown_variant_message` from `generator.rs`. -/
def format_unknown_variant_message (type_name : String)
    (override_message : Option String) (default_expected : String) : String :=
  match override_message with
  | some template => replaceStr template "\x7btype\x7d" type_name
  | none => default_expected

structure DecoderOutput where
  code : String
  uses_option_helpers : Bool
deriving Repr, DecidableEq

/-- `generate_decoder` from `generator.rs`. -/
def generate_decoder (type_info : CustomTypeInfo) (config : Config)
    (registry : TypeRegistry) (imports : Imports) (type_lookup : TypeLookup)
    (unknown_variant_message : Option String) :
    Except GlossError (DecoderOutput × Imports) := do
  let type_name := type_info.name
  let decoder_name := config.fn_naming.render_decoder_fn_name type_name
  let mode := determine_encoding_mode type_info.constructors type_info
  let field_naming := type_info.field_naming_strategy.getD config.field_naming_strategy
  match type_info.constructors with
  | [constructor] =>
    let (body, imports, uses) ←
      generate_single_constructor_decoder constructor mode field_naming config registry
        type_info.module_path 0 imports false
    .ok (⟨"pub fn " ++ decoder_name ++ "() -> decode.Decoder(" ++ type_name ++ ") " ++
        body, uses⟩, imports)
  | _ =>
    let type_tag_field := type_info.type_tag_field.getD "type"
    let (default_value_expr, imports, uses) :=
      default_value_for_type type_info type_lookup imports false
    let expected_variants := format_expected_variants type_info.constructors
    let expected_message :=
      format_unknown_variant_message type_name unknown_variant_message expected_variants
    let (body, imports, uses) ←
      generate_multi_constructor_decoder type_info.constructors mode field_naming
        type_tag_field config registry type_info.module_path default_value_expr
        expected_message imports uses
    .ok (⟨"pub fn " ++ decoder_name ++ "() -> decode.Decoder(" ++ type_name ++ ") " ++
        body, uses⟩, imports)


/-! ## Constructor encoders (embedded from `generator.rs`) -/

/-- The `for field in &constructor.fields` loop shared by
`generate_single_constructor_encoder` and
`generate_constructor_encoder_body`: (JSON key, encoded value) pairs. -/
def generate_field_encoders (field_naming : FieldNamingConvention)
    (encoder_type : EncoderType) (backend : EncoderBackend) (registry : TypeRegistry)
    (current_module_path : String) :
    List FieldInfo → Imports → Except GlossError (List (String × String) × Imports)
  | [], imports => .ok ([], imports)
  | field :: rest, imports => do
    let json_field_name :=
      match field.custom_name with
      | some name => name
      | none => convert_field_name field.label field_naming
    let (encoder, imports) ←
      generate_type_encoder registry current_module_path backend encoder_type
        field.label field.type_expr field.encoder_with imports
    let (pairs, imports) ←
      generate_field_encoders field_naming encoder_type backend registry
        current_module_path rest imports
    .ok ((json_field_name, encoder) :: pairs, imports)

/-- The ordered `field_encoders` vector built by the constructor encoders:
the discriminant pair is pushed first when the mode is `ObjectWithTypeTag`,
then one pair per field in declaration order. -/
def generate_constructor_encoder_pairs (constructor : ConstructorInfo)
    (mode : EncodingMode) (field_naming : FieldNamingConvention)
    (type_tag_field : String) (encoder_type : EncoderType) (backend : EncoderBackend)
    (registry : TypeRegistry) (current_module_path : String) (imports : Imports) :
    Except GlossError (List (String × String) × Imports) := do
  let tag_pairs : List (String × String) :=
    if mode = .ObjectWithTypeTag then
      [(type_tag_field, backend.encode_string_literal (to_snake_case constructor.name))]
    else
      []
  let (field_pairs, imports) ←
    generate_field_encoders field_naming encoder_type backend registry
      current_module_path constructor.fields imports
  .ok (tag_pairs ++ field_pairs, imports)

/-- `generate_single_constructor_encoder` from `generator.rs`. -/
def generate_single_constructor_encoder (constructor : ConstructorInfo)
    (arg_name : String) (mode : EncodingMode) (field_naming : FieldNamingConvention)
    (type_tag_field : String) (encoder_type : EncoderType) (backend : EncoderBackend)
    (registry : TypeRegistry) (current_module_path : String) (nesting : Nat)
    (imports : Imports) : Except GlossError (String × Imports) :=
  let indent := spaces nesting
  if mode = .PlainString then
    let tag := to_snake_case constructor.name
    .ok (indent ++ backend.encode_string_literal tag, imports)
  else if constructor.fields.isEmpty then
    .ok (backend.encode_empty_object indent, imports)
  else do
    let field_labels := constructor.fields.map (fun f => f.label ++ ":")
    let unpacking :=
      if ¬ field_labels.isEmpty then
        indent ++ "let " ++ constructor.name ++ "(" ++
          String.intercalate ", " field_labels ++ ") = " ++ arg_name ++ "\n"
      else
        ""
    let (field_encoders, imports) ←
      generate_constructor_encoder_pairs constructor mode field_naming type_tag_field
        encoder_type backend registry current_module_path imports
    let object_expr := backend.encode_object indent field_encoders indent
    .ok (unpacking ++ object_expr, imports)

/-- `generate_constructor_encoder_body` from `generator.rs` (per-variant
encoder without unpacking; used by the multi-constructor encoder). -/
def generate_constructor_encoder_body (constructor : ConstructorInfo)
    (mode : EncodingMode) (field_naming : FieldNamingConvention)
    (type_tag_field : String) (encoder_type : EncoderType) (backend : EncoderBackend)
    (registry : TypeRegistry) (current_module_path : String) (nesting : Nat)
    (imports : Imports) : Except GlossError (String × Imports) :=
  if mode = .PlainString then
    let tag := to_snake_case constructor.name
    .ok (backend.encode_string_literal tag, imports)
  else
    let indent := spaces nesting
    if constructor.fields.isEmpty then
      .ok (backend.encode_empty_object indent, imports)
    else do
      let (field_encoders, imports) ←
        generate_constructor_encoder_pairs constructor mode field_naming type_tag_field
          encoder_type backend registry current_module_path imports
      .ok (backend.encode_object indent field_encoders indent, imports)

/-- The `for constructor in constructors` loop of
`generate_multi_constructor_encoder`. -/
def generate_encoder_cases (mode : EncodingMode) (field_naming : FieldNamingConvention)
    (type_tag_field : String) (encoder_type : EncoderType) (backend : EncoderBackend)
    (registry : TypeRegistry) (current_module_path : String) :
    List ConstructorInfo → Imports → Except GlossError (List String × Imports)
  | [], imports => .ok ([], imports)
  | constructor :: rest, imports => do
    let field_labels := constructor.fields.map (fun f => f.label ++ ":")
    let pattern :=
      if field_labels.isEmpty then constructor.name
      else constructor.name ++ "(" ++ String.intercalate ", " field_labels ++ ")"
    let (encoder, imports) ←
      generate_constructor_encoder_body constructor mode field_naming type_tag_field
        encoder_type backend registry current_module_path 4 imports
    let (cases, imports) ←
      generate_encoder_cases mode field_naming type_tag_field encoder_type backend
        registry current_module_path rest imports
    .ok (("    " ++ pattern ++ " -> " ++ trimStr encoder) :: cases, imports)

/-- `generate_multi_constructor_encoder` from `generator.rs`. -/
def generate_multi_constructor_encoder (constructors : List ConstructorInfo)
    (arg_name : String) (mode : EncodingMode) (field_naming : FieldNamingConvention)
    (type_tag_field : String) (encoder_type : EncoderType) (backend : EncoderBackend)
    (registry : TypeRegistry) (current_module_path : String) (imports : Imports) :
    Except GlossError (String × Imports) := do
  let (cases, imports) ←
    generate_encoder_cases mode field_naming type_tag_field encoder_type backend
      registry current_module_path constructors imports
  let cases_str := String.intercalate "\n" cases
  .ok ("  case " ++ arg_name ++ " \x7b\n" ++ cases_str ++ "\n  \x7d", imports)

/-- `generate_encoder` from `generator.rs`.  The encoder name is the
pass-2 computation `encoder_fn_name_pass2` applied to the identifiers of the
type's requested encoders. -/
def generate_encoder (type_info : CustomTypeInfo) (encoder_type : EncoderType)
    (config : Config) (registry : TypeRegistry) (backend : EncoderBackend)
    (imports : Imports) : Except GlossError (String × Imports) := do
  let type_name := type_info.name
  let function_name := to_snake_case type_name
  let backend_identifier := encoder_type.identifier
  let encoder_name :=
    encoder_fn_name_pass2 config.fn_naming type_name backend_identifier
      (type_info.encoders.map EncoderType.identifier)
  let arg_name := function_name
  let mode := determine_encoding_mode type_info.constructors type_info
  let field_naming := type_info.field_naming_strategy.getD config.field_naming_strategy
  let type_tag_field := type_info.type_tag_field.getD "type"
  let bodyRes : Except GlossError (String × Imports) :=
    match type_info.constructors with
    | [constructor] =>
      generate_single_constructor_encoder constructor arg_name mode field_naming
        type_tag_field encoder_type backend registry type_info.module_path 2 imports
    | _ =>
      generate_multi_constructor_encoder type_info.constructors arg_name mode
        field_naming type_tag_field encoder_type backend registry
        type_info.module_path imports
  let (body, imports) ← bodyRes
  .ok ("pub fn " ++ encoder_name ++ "(" ++ arg_name ++ ": " ++ type_name ++ ") -> " ++
      backend.return_type ++ " \x7b\n" ++ body ++ "\n\x7d", imports)


/-! ## Output configuration overrides and path modes (embedded from
`config.rs` and `parser.rs`) -/

/-- `OutputConfig::apply_override` from `config.rs`. -/
def OutputConfig.apply_override (self : OutputConfig) (o : OutputOverride) : OutputConfig :=
  { directory := o.directory.or self.directory
    generated_file_naming := o.generated_file_naming.getD self.generated_file_naming
    separate_files := self.separate_files
    separate_encoder_decoder := o.separate_encoder_decoder.getD self.separate_encoder_decoder
    encode_module_naming := o.encode_module_naming.getD self.encode_module_naming
    decode_module_naming := o.decode_module_naming.getD self.decode_module_naming }

def startsWithChar (s : String) (c : Char) : Bool := s.data.head? = some c

def startsWithStr (s pat : String) : Bool := pat.data.isPrefixOf s.data

/-- `OutputOverride::path_mode` from `parser.rs`. -/
def OutputOverride.path_mode (self : OutputOverride) : PathMode :=
  match self.directory with
  | some dir =>
    if startsWithChar dir '@' || startsWithChar dir '/' then .ProjectRelative
    else .FileRelative
  | none => .FileRelative

/-- `infer_path_mode` from `lib.rs`. -/
def infer_path_mode (directory : String) (default_mode : PathMode) : PathMode :=
  if startsWithChar directory '@' || startsWithChar directory '/' then .ProjectRelative
  else if startsWithStr directory "./" then .FileRelative
  else default_mode

/-! ## Project pipeline (embedded from `lib.rs` `generate_for_project`)

File discovery, Gleam parsing and `gloss.toml` loading are collaborator
I/O: each file arrives with its parsed types and its already-cascaded
directory configuration; the manifest arrives parsed.  Everything after that
point follows the source: the backend dependency precondition, the pass-1
name registry, per-type generation, and output bucketing with the
option-alias check. -/

structure TypeCode where
  type_name : String
  module_path : String
  constructors : List String
  decoder : Option String
  encoder : Option String
deriving Repr

structure GeneratedCode where
  types : List TypeCode
  output_config : OutputConfig
  path_mode : PathMode
  custom_imports : Imports
  encoder_backends : List (String × EncoderBackend)
  decoder_uses_option_helpers : Bool

structure FileInput where
  path : String
  cascaded_config : Config
  file_config : FileConfig
  types : List CustomTypeInfo

/-- The `BackendRegistry` lookup (`backend.rs`). -/
abbrev BackendRegistryM := EncoderType → Option EncoderBackend

/-- `BackendRegistry::new()`: the built-in JSON backend. -/
def newBackendRegistry : BackendRegistryM := fun et =>
  match et with
  | .Json => some jsonBackend

def EncoderType.debugStr : EncoderType → String
  | .Json => "Json"

/-- `has_generated_encoders` from `lib.rs`. -/
def has_generated_encoders (files : List FileInput) : Bool :=
  files.any (fun f => f.types.any (fun ti => ¬ ti.encoders.isEmpty))

/-- The `used_encoders` `HashSet` collection loop of `generate_for_project`. -/
def used_encoder_types (files : List FileInput) : List EncoderType :=
  files.foldl
    (fun acc f =>
      f.types.foldl
        (fun acc ti =>
          ti.encoders.foldl (fun acc et => if acc.contains et then acc else acc ++ [et]) acc)
        acc)
    []

/-- The backend dependency precondition loop of `generate_for_project`
(`lib.rs` lines 406–425). -/
def check_used_backends (manifest : GleamManifest) (registry : BackendRegistryM) :
    List EncoderType → Except GlossError Unit
  | [] => .ok ()
  | encoder_type :: rest => do
    match registry encoder_type with
    | none =>
      .error (.GenerationError
        ("No encoder backend registered for " ++ encoder_type.debugStr))
    | some backend => do
      ensure_backend_dependencies manifest backend
      check_used_backends manifest registry rest

/-- `build_type_registry` from `lib.rs` (initial entries; names are filled by
the pass-1 loop). -/
def registry_insert (module : String) (tyname : String) (entry : TypeRegistryEntry) :
    TypeRegistry → TypeRegistry
  | [] => [(module, [(tyname, entry)])]
  | (m, types) :: rest =>
    if module = m then
      (m, (tyname, entry) :: types.filter (fun p => p.1 ≠ tyname)) :: rest
    else
      (m, types) :: registry_insert module tyname entry rest

def build_type_registry (files : List FileInput) : TypeRegistry :=
  files.foldl
    (fun reg f =>
      f.types.foldl
        (fun reg ti =>
          registry_insert ti.module_path ti.name
            { module_path := ti.module_path
              generates_decoder := ti.generate_decoder
              decoder_fn_name := none
              encoder_fn_names := [] }
            reg)
        reg)
    []

def build_type_lookup (files : List FileInput) : TypeLookup :=
  files.foldl
    (fun lk f =>
      f.types.foldl
        (fun lk ti => ((ti.module_path, ti.name), ti) :: lk.filter
          (fun p => p.1 ≠ (ti.module_path, ti.name)))
        lk)
    []

/-- The per-file effective `fn_naming` used by both passes: cascaded config
plus file-level then type-level overrides. -/
def effective_fn_naming (cascaded : Config) (file_config : FileConfig)
    (ti : CustomTypeInfo) : FnNamingConfig :=
  let after_file :=
    match file_config.fn_naming_override with
    | some o => cascaded.fn_naming.apply_override o
    | none => cascaded.fn_naming
  match ti.fn_naming_override with
  | some o => after_file.apply_override o
  | none => after_file

/-- The pass-1 registry update for one type (`lib.rs` lines 439–482). -/
def pass1_update_entry (fn_naming : FnNamingConfig) (ti : CustomTypeInfo)
    (entry : TypeRegistryEntry) : TypeRegistryEntry :=
  { entry with
    decoder_fn_name :=
      if ti.generate_decoder then some (fn_naming.render_decoder_fn_name ti.name)
      else none
    encoder_fn_names :=
      encoder_fn_names_pass1 fn_naming ti.name (ti.encoders.map EncoderType.identifier) }

def registry_update (module : String) (tyname : String)
    (f : TypeRegistryEntry → TypeRegistryEntry) : TypeRegistry → TypeRegistry
  | [] => []
  | (m, types) :: rest =>
    if module = m then
      (m, types.map (fun p => if p.1 = tyname then (p.1, f p.2) else p)) :: rest
    else
      (m, types) :: registry_update module tyname f rest

/-- Pass 1 of `generate_for_project`: precompute every type's canonical
generated function names. -/
def pass1_registry (files : List FileInput) : TypeRegistry :=
  files.foldl
    (fun reg f =>
      f.types.foldl
        (fun reg ti =>
          registry_update ti.module_path ti.name
            (pass1_update_entry (effective_fn_naming f.cascaded_config f.file_config ti) ti)
            reg)
        reg)
    (build_type_registry files)

structure TypeContext where
  config : Config
  path_mode : PathMode
  unknown_message : Option String

/-- The per-file config layering of `generate_for_project` (`lib.rs` lines
494–528): file-level overrides applied to the cascaded config. -/
def file_effective_config (cascaded : Config) (file_config : FileConfig) :
    Config × PathMode × Option String :=
  let effective := cascaded
  let file_unknown_message := effective.decoder_unknown_variant_message
  let path_mode :=
    match effective.output.directory with
    | some dir => infer_path_mode dir .ProjectRelative
    | none => .FileRelative
  let (effective, path_mode) :=
    match file_config.output_override with
    | some file_override =>
      let path_mode :=
        match file_override.directory with
        | some override_dir => infer_path_mode override_dir file_override.path_mode
        | none => path_mode
      let effective := { effective with output := effective.output.apply_override file_override }
      let path_mode :=
        if file_override.directory.isNone then
          match effective.output.directory with
          | some dir => infer_path_mode dir path_mode
          | none => path_mode
        else path_mode
      (effective, path_mode)
    | none => (effective, path_mode)
  let effective :=
    match file_config.fn_naming_override with
    | some o => { effective with fn_naming := effective.fn_naming.apply_override o }
    | none => effective
  let file_unknown_message :=
    match file_config.unknown_variant_message with
    | some message => some message
    | none => file_unknown_message
  (effective, path_mode, file_unknown_message)

/-- The per-type config layering of `generate_for_project` (`lib.rs` lines
530–568). -/
def type_context (effective_config : Config) (path_mode : PathMode)
    (file_unknown_message : Option String) (ti : CustomTypeInfo) : TypeContext :=
  let type_config := effective_config
  let type_path_mode := path_mode
  let (type_config, type_path_mode) :=
    match ti.output_override with
    | some type_override =>
      let type_path_mode :=
        match type_override.directory with
        | some override_dir => infer_path_mode override_dir type_override.path_mode
        | none => type_path_mode
      let type_config :=
        { type_config with output := type_config.output.apply_override type_override }
      let type_path_mode :=
        if type_override.directory.isNone then
          match type_config.output.directory with
          | some dir => infer_path_mode dir type_path_mode
          | none => type_path_mode
        else type_path_mode
      (type_config, type_path_mode)
    | none =>
      match type_config.output.directory with
      | some dir => (type_config, infer_path_mode dir type_path_mode)
      | none => (type_config, type_path_mode)
  let type_config :=
    match ti.fn_naming_override with
    | some o => { type_config with fn_naming := type_config.fn_naming.apply_override o }
    | none => type_config
  let unknown_message :=
    match ti.unknown_variant_message with
    | some message => some message
    | none => file_unknown_message
  let type_config := { type_config with decoder_unknown_variant_message := unknown_message }
  ⟨type_config, type_path_mode, unknown_message⟩

/-- Set-union on the `BTreeSet` string sets of an `ImportEntry`. -/
def listUnion (a b : List String) : List String :=
  a ++ b.filter (fun x => ¬ a.contains x)

/-- `merge_imports` from `lib.rs`. -/
def merge_imports (target : Imports) : Imports → Imports
  | [] => target
  | (module_path, entry) :: rest =>
    let target :=
      match imports_lookup module_path target with
      | some existing =>
        imports_insert module_path
          { existing with
            values := listUnion existing.values entry.values
            types := listUnion existing.types entry.types }
          target
      | none => imports_insert module_path entry target
    merge_imports target rest

/-- The per-encoder-backends merge (`entry(name).or_insert`). -/
def merge_backends (target : List (String × EncoderBackend)) :
    List (String × EncoderBackend) → List (String × EncoderBackend)
  | [] => target
  | (name, backend) :: rest =>
    let target :=
      if (target.map Prod.fst).contains name then target
      else target ++ [(name, backend)]
    merge_backends target rest

/-- The `for encoder_type in &type_info.encoders` generation loop
(`lib.rs` lines 598–627): all encoders of one type concatenated. -/
def generate_type_encoders (ti : CustomTypeInfo) (type_config : Config)
    (registry : TypeRegistry) (backend_registry : BackendRegistryM) :
    List EncoderType → Imports → List (String × EncoderBackend) →
      Except GlossError (String × Imports × List (String × EncoderBackend))
  | [], imports, backends => .ok ("", imports, backends)
  | encoder_type :: rest, imports, backends =>
    match backend_registry encoder_type with
    | none =>
      .error (.GenerationError
        ("No encoder backend registered for " ++ encoder_type.debugStr))
    | some backend => do
      let backend_name := backend.name
      let backends :=
        if (backends.map Prod.fst).contains backend_name then backends
        else backends ++ [(backend_name, backend)]
      let (code, imports) ←
        generate_encoder ti encoder_type type_config registry backend imports
      let (restCode, imports, backends) ←
        generate_type_encoders ti type_config registry backend_registry rest imports
          backends
      .ok (code ++ "\n\n" ++ restCode, imports, backends)

/-- Rust `str::trim_end` (ASCII model). -/
def trimEndStr (s : String) : String :=
  ⟨(s.data.reverse.dropWhile isWsChar).reverse⟩

/-- The output-bucketing step of `generate_for_project` (`lib.rs` lines
629–671): append a generated type to the bucket with the same
(path mode, output config) key, or open a new bucket; run the option-alias
check where the source does. -/
def push_type_output (type_code : TypeCode) (type_path_mode : PathMode)
    (type_output_config : OutputConfig) (type_imports : Imports)
    (encoder_backends : List (String × EncoderBackend))
    (decoder_uses_option_helpers : Bool) :
    List GeneratedCode → Except GlossError (List GeneratedCode)
  | [] => do
    if decoder_uses_option_helpers then
      ensure_no_option_alias_conflict type_imports
    .ok [{ types := [type_code]
           output_config := type_output_config
           path_mode := type_path_mode
           custom_imports := type_imports
           encoder_backends := encoder_backends
           decoder_uses_option_helpers := decoder_uses_option_helpers }]
  | existing :: rest =>
    if existing.path_mode = type_path_mode ∧ existing.output_config = type_output_config then do
      let existing :=
        { existing with
          types := existing.types ++ [type_code]
          custom_imports := merge_imports existing.custom_imports type_imports
          encoder_backends := merge_backends existing.encoder_backends encoder_backends
          decoder_uses_option_helpers :=
            existing.decoder_uses_option_helpers || decoder_uses_option_helpers }
      if existing.decoder_uses_option_helpers then
        ensure_no_option_alias_conflict existing.custom_imports
      .ok (existing :: rest)
    else do
      let rest ←
        push_type_output type_code type_path_mode type_output_config type_imports
          encoder_backends decoder_uses_option_helpers rest
      .ok (existing :: rest)

/-- The per-type generation body of `generate_for_project` (`lib.rs` lines
572–671). -/
def generate_one_type (registry : TypeRegistry) (type_lookup : TypeLookup)
    (backend_registry : BackendRegistryM) (ti : CustomTypeInfo) (ctx : TypeContext)
    (file_outputs : List GeneratedCode) : Except GlossError (List GeneratedCode) := do
  let type_config := ctx.config
  let type_path_mode := ctx.path_mode
  let unknown_message := ctx.unknown_message
  let (decoder, type_imports, decoder_uses_option_helpers) ←
    if ti.generate_decoder then do
      let (decoder_output, imports) ←
        generate_decoder ti type_config registry [] type_lookup unknown_message
      pure (some decoder_output.code, imports, decoder_output.uses_option_helpers)
    else
      pure ((none : Option String), ([] : Imports), false)
  let (encoder, type_imports, encoder_backends) ←
    if ¬ ti.encoders.isEmpty then do
      let (encoder_code, imports, backends) ←
        generate_type_encoders ti type_config registry backend_registry ti.encoders
          type_imports []
      pure (some (trimEndStr encoder_code), imports, backends)
    else
      pure ((none : Option String), type_imports, ([] : List (String × EncoderBackend)))
  if decoder.isSome ∨ encoder.isSome then
    let type_code : TypeCode :=
      { type_name := ti.name
        module_path := ti.module_path
        constructors := ti.constructors.map (fun c => c.name)
        decoder := decoder
        encoder := encoder }
    push_type_output type_code type_path_mode type_config.output type_imports
      encoder_backends decoder_uses_option_helpers file_outputs
  else
    .ok file_outputs

def generate_file_types (registry : TypeRegistry) (type_lookup : TypeLookup)
    (backend_registry : BackendRegistryM) (effective_config : Config)
    (path_mode : PathMode) (file_unknown_message : Option String) :
    List CustomTypeInfo → List GeneratedCode → Except GlossError (List GeneratedCode)
  | [], file_outputs => .ok file_outputs
  | ti :: rest, file_outputs => do
    let ctx := type_context effective_config path_mode file_unknown_message ti
    let file_outputs ←
      generate_one_type registry type_lookup backend_registry ti ctx file_outputs
    generate_file_types registry type_lookup backend_registry effective_config path_mode
      file_unknown_message rest file_outputs

def generate_files (registry : TypeRegistry) (type_lookup : TypeLookup)
    (backend_registry : BackendRegistryM) :
    List FileInput → Except GlossError (List (String × List GeneratedCode))
  | [] => .ok []
  | f :: rest => do
    let (effective_config, path_mode, file_unknown_message) :=
      file_effective_config f.cascaded_config f.file_config
    let file_outputs ←
      generate_file_types registry type_lookup backend_registry effective_config
        path_mode file_unknown_message f.types []
    let outputs ← generate_files registry type_lookup backend_registry rest
    if file_outputs.isEmpty then .ok outputs
    else .ok ((f.path, file_outputs) :: outputs)

/-- `generate_for_project` from `lib.rs`: dependency precondition for every
requested backend first, then pass 1 (names), then pass 2 (generation and
bucketing). -/
def generate_for_project (files : List FileInput) (manifest : GleamManifest)
    (backend_registry : BackendRegistryM) :
    Except GlossError (List (String × List GeneratedCode)) := do
  if has_generated_encoders files then
    check_used_backends manifest backend_registry (used_encoder_types files)
  let registry := pass1_registry files
  let type_lookup := build_type_lookup files
  generate_files registry type_lookup backend_registry files


/-- Example inputs shared by witnesses: an `Option(Int)`-typed field with no
explicit marker, as in the repository's own `Settings` test type. -/
def exOptionIntExpr : TypeExpression :=
  .Constructor (some "gleam/option") "Option" [.Constructor none "Int" []]

def exThresholdField : FieldInfo :=
  { label := "threshold"
    type_ := "Option(Int)"
    type_expr := exOptionIntExpr
    is_option := true
    marker := .Default
    custom_name := none
    decoder_with := none
    encoder_with := none }

def exMaybeAbsentConfig : Config :=
  { Config.default with absent_field_mode := .MaybeAbsent }

def exStatusPlain : CustomTypeInfo :=
  { name := "Status", constructors := [⟨"Active", []⟩, ⟨"Inactive", []⟩],
    encoders := [.Json], generate_decoder := true, field_naming_strategy := none,
    module_name := "status", module_path := "status", type_tag_field := none,
    disable_type_tag := false, output_override := none, unknown_variant_message := none,
    fn_naming_override := none, option_availability := ⟨true, []⟩ }

def exStatusNoTag : CustomTypeInfo :=
  { exStatusPlain with disable_type_tag := true }

def exCtorA : ConstructorInfo :=
  ⟨"A", [{ label := "x", type_ := "Int", type_expr := .Constructor none "Int" [],
           is_option := false, marker := .Default, custom_name := none,
           decoder_with := none, encoder_with := none }]⟩

def exCtorB : ConstructorInfo := ⟨"B", []⟩

def exMixed : CustomTypeInfo :=
  { name := "T", constructors := [exCtorA, exCtorB],
    encoders := [.Json], generate_decoder := true, field_naming_strategy := none,
    module_name := "m", module_path := "m", type_tag_field := none,
    disable_type_tag := false, output_override := none, unknown_variant_message := none,
    fn_naming_override := none, option_availability := ⟨true, []⟩ }

/-! ## Claim C9: termination of default-value synthesis

`build_default_for_custom_type` recurses through the lookup guarded by the
visited set; the fuel `lookup size + 1` supplied by `default_value_for_type`
can never run out because each descent visits a fresh key of the lookup.
`unvisitedCount` is the number of lookup keys not yet visited. -/

def unvisitedCount (type_lookup : TypeLookup) (visited : List (String × String)) : Nat :=
  ((type_lookup.map Prod.fst).filter (fun k => decide (k ∉ visited))).length

/-- Good behaviour of a descent callback at a given fuel: on states with
fewer unvisited keys than the fuel it succeeds, only grows the visited set,
and does not increase the unvisited count. -/
def DescendOk (type_lookup : TypeLookup) (fuel : Nat) (bd : DescendFn) : Prop :=
  ∀ tm tn cm st, unvisitedCount type_lookup st.visited < fuel →
    ∃ res st', bd tm tn cm type_lookup st = .ok (res, st') ∧
      st.visited ⊆ st'.visited ∧
      unvisitedCount type_lookup st'.visited ≤ unvisitedCount type_lookup st.visited

def exAField : FieldInfo :=
  { label := "b", type_ := "B", type_expr := .Constructor none "B" [],
    is_option := false, marker := .Default, custom_name := none,
    decoder_with := none, encoder_with := none }

def exBField : FieldInfo :=
  { label := "a", type_ := "A", type_expr := .Constructor none "A" [],
    is_option := false, marker := .Default, custom_name := none,
    decoder_with := none, encoder_with := none }

/-- A structurally cyclic pair of types: `A(b: B)` and `B(a: A)`. -/
def exA : CustomTypeInfo :=
  { name := "A", constructors := [⟨"A", [exAField]⟩],
    encoders := [], generate_decoder := true, field_naming_strategy := none,
    module_name := "m", module_path := "m", type_tag_field := none,
    disable_type_tag := false, output_override := none, unknown_variant_message := none,
    fn_naming_override := none, option_availability := ⟨true, []⟩ }

def exB : CustomTypeInfo :=
  { name := "B", constructors := [⟨"B", [exBField]⟩],
    encoders := [], generate_decoder := true, field_naming_strategy := none,
    module_name := "m", module_path := "m", type_tag_field := none,
    disable_type_tag := false, output_override := none, unknown_variant_message := none,
    fn_naming_override := none, option_availability := ⟨true, []⟩ }

def exLookupAB : TypeLookup := [(("m", "A"), exA), (("m", "B"), exB)]

/-! ## Claim C7: backend dependency precondition -/

/-- The missing-`gleam/json` error message produced by
`ensure_backend_dependencies`. -/
def depJsonMsg : String :=
  "Generating encoders requires the `gleam/json` dependency. Add `gleam/json = \"~> 1\"` (or your preferred version) to gleam.toml."

/-! ## Theorems -/

theorem toNat_ofNat_valid (n : Nat) (h : n < 55296) : (Char.ofNat n).toNat = n := by
  have hv : n.isValidChar := Or.inl h
  rw [Char.ofNat, dif_pos hv]
  simp [Char.ofNatAux, Char.toNat, UInt32.toNat, BitVec.toNat_ofNatLt]

theorem charToLower_charToUpper (c : Char) (h : isLowerAz c = true) :
    charToLower (charToUpper c) = c := by
  have hc : 97 ≤ c.toNat ∧ c.toNat ≤ 122 := of_decide_eq_true h
  have h32 : c.toNat - 32 < 55296 := by omega
  unfold charToUpper
  rw [if_pos h]
  have ht : (Char.ofNat (c.toNat - 32)).toNat = c.toNat - 32 := toNat_ofNat_valid _ h32
  unfold charToLower
  rw [if_pos (by unfold isUpperAz; rw [ht]; exact decide_eq_true (by omega))]
  rw [ht]
  have : c.toNat - 32 + 32 = c.toNat := by omega
  rw [this]
  exact Char.ofNat_toNat c

theorem isUpperAz_charToUpper (c : Char) (h : isLowerAz c = true) :
    isUpperAz (charToUpper c) = true := by
  have hc : 97 ≤ c.toNat ∧ c.toNat ≤ 122 := of_decide_eq_true h
  unfold charToUpper
  rw [if_pos h]
  have ht : (Char.ofNat (c.toNat - 32)).toNat = c.toNat - 32 :=
    toNat_ofNat_valid _ (by omega)
  unfold isUpperAz
  rw [ht]
  exact decide_eq_true (by omega)

theorem charToLower_of_lower (c : Char) (h : isLowerAz c = true) :
    charToLower c = c := by
  have hc : 97 ≤ c.toNat ∧ c.toNat ≤ 122 := of_decide_eq_true h
  unfold charToLower
  rw [if_neg]
  unfold isUpperAz
  simp only [decide_eq_true_eq]
  omega

theorem isUpperAz_of_lower (c : Char) (h : isLowerAz c = true) :
    isUpperAz c = false := by
  have hc : 97 ≤ c.toNat ∧ c.toNat ≤ 122 := of_decide_eq_true h
  unfold isUpperAz
  simp only [decide_eq_false_iff_not]
  omega

theorem containsSubL_append (a pat b : List Char) :
    containsSubL (a ++ pat ++ b) pat = true := by
  induction a with
  | nil =>
    rw [containsSubL.eq_def]
    have : pat.isPrefixOf (pat ++ b) = true := by
      rw [List.isPrefixOf_iff_prefix]
      exact ⟨b, rfl⟩
    simp only [List.nil_append, this, Bool.true_or]
  | cons c rest ih =>
    rw [containsSubL.eq_def]
    simp only [List.cons_append]
    cases hp : pat.isPrefixOf (c :: (rest ++ pat ++ b)) with
    | true => simp
    | false => simpa using ih

/-- If a string is literally built as `a ++ pat ++ b`, it contains `pat`. -/
theorem containsStr_of_eq (s a pat b : String) (h : s = a ++ pat ++ b) :
    containsStr s pat = true := by
  subst h
  show containsSubL ((a ++ pat ++ b).data) pat.data = true
  have : (a ++ pat ++ b).data = a.data ++ pat.data ++ b.data := by
    simp [String.data_append]
  rw [this]
  exact containsSubL_append a.data pat.data b.data

theorem toCamelGo_eq_specCamelAux (l : List Char) (b : Bool) (prev : Char)
    (h : b = true ↔ prev = '_') : toCamelGo b l = specCamelAux prev l := by
  induction l generalizing b prev with
  | nil => rfl
  | cons c rest ih =>
    rw [toCamelGo, specCamelAux]
    by_cases hc : c = '_'
    · rw [if_pos hc, if_pos hc]
      exact ih true c (by simp [hc])
    · rw [if_neg hc, if_neg hc]
      by_cases hb : b = true
      · rw [if_pos hb, if_pos (h.mp hb)]
        rw [ih false c (by simp [hc])]
      · have hb' : b = false := by
          cases b with
          | true => exact absurd rfl hb
          | false => rfl
        have hprev : ¬ prev = '_' := fun hp => hb (h.mpr hp)
        rw [hb', if_neg (by simp), if_neg hprev]
        rw [ih false c (by simp [hc])]

theorem toCamelL_eq_specCamelL (l : List Char) : toCamelL l = specCamelL l := by
  cases l with
  | nil => rfl
  | cons c rest =>
    rw [toCamelL, specCamelL]
    by_cases hc : c = '_'
    · rw [if_pos hc, if_pos hc]
      exact toCamelGo_eq_specCamelAux rest true '_' (by simp)
    · rw [if_neg hc, if_neg hc]
      rw [toCamelGo_eq_specCamelAux rest false c (by simp [hc])]

/-- C5.  For every field label, the JSON key derived with no rename override
(`convert_field_name`) is the spec's transformation under CamelCase — lowercase
the first character, delete every underscore, uppercase the character that
follows each deleted underscore — and the identity under SnakeCase. -/
theorem convert_field_name_spec (s : String) :
    convert_field_name s .CamelCase = spec_camel_case s ∧
    convert_field_name s .SnakeCase = s := by
  refine ⟨?_, rfl⟩
  show to_camel_case s = spec_camel_case s
  unfold to_camel_case spec_camel_case
  rw [toCamelL_eq_specCamelL]

theorem snakeOkTail_cons (c : Char) (rest : List Char) :
    snakeOkTail (c :: rest) =
      if c = '_' then
        (match rest with
         | [] => false
         | d :: _ => isLowerAz d && snakeOkTail rest)
      else isLowerAz c && snakeOkTail rest := by
  rw [snakeOkTail.eq_def]

theorem toSnakeGo_toCamelGo (l : List Char) (h : snakeOkTail l = true) :
    toSnakeGo (toCamelGo false l) = l := by
  induction l with
  | nil => rfl
  | cons c rest ih =>
    by_cases hc : c = '_'
    · subst hc
      rw [snakeOkTail_cons (c := '_'), if_pos rfl] at h
      cases rest with
      | nil => simp at h
      | cons d rest2 =>
        simp only [Bool.and_eq_true] at h
        obtain ⟨hd, htail⟩ := h
        have ihdrest := ih htail
        have hd' : ¬ d = '_' := by
          intro hdeq
          rw [hdeq] at hd
          exact absurd hd (by decide)
        rw [toCamelGo, if_neg hd', if_neg (by simp)] at ihdrest
        rw [toSnakeGo, if_neg (by rw [isUpperAz_of_lower d hd]; simp)] at ihdrest
        rw [toCamelGo, if_pos rfl]
        rw [toCamelGo, if_neg hd', if_pos rfl]
        rw [toSnakeGo, if_pos (isUpperAz_charToUpper d hd)]
        simp only [List.cons_append, List.nil_append, List.singleton_append,
          List.cons.injEq, true_and] at ihdrest ⊢
        exact ⟨charToLower_charToUpper d hd, ihdrest⟩
    · rw [snakeOkTail_cons, if_neg hc] at h
      simp only [Bool.and_eq_true] at h
      obtain ⟨hcl, htail⟩ := h
      rw [toCamelGo, if_neg hc, if_neg (by simp)]
      rw [toSnakeGo]
      rw [if_neg (by rw [isUpperAz_of_lower c hcl]; simp)]
      simp only [List.singleton_append, List.cons.injEq, true_and]
      exact ih htail

theorem toSnakeL_toCamelL (l : List Char) (h : goodSnakeL l = true) :
    toSnakeL (toCamelL l) = l := by
  cases l with
  | nil => rfl
  | cons c rest =>
    rw [goodSnakeL] at h
    simp only [Bool.and_eq_true, decide_eq_true_eq] at h
    obtain ⟨hc, htail⟩ := h
    rw [snakeOkTail_cons, if_neg hc] at htail
    simp only [Bool.and_eq_true] at htail
    obtain ⟨hcl, hrest⟩ := htail
    rw [toCamelL, if_neg hc, charToLower_of_lower c hcl]
    rw [toSnakeL]
    rw [if_neg (by rw [isUpperAz_of_lower c hcl]; simp)]
    rw [toSnakeGo_toCamelGo rest hrest]
    simp

/-- C10.  For labels made of ASCII lowercase letters and underscores, not
starting with an underscore and with every underscore immediately followed by
a lowercase letter, `to_snake_case` inverts `to_camel_case`. -/
theorem to_snake_of_to_camel (s : String) (h : goodSnake s = true) :
    to_snake_case (to_camel_case s) = s := by
  cases s with
  | mk data =>
    refine congrArg String.mk ?_
    exact toSnakeL_toCamelL data h

/-- C10 witness: the round trip on the concrete label `user_profile`. -/
theorem to_snake_of_to_camel_witness :
    goodSnake "user_profile" = true ∧
      to_snake_case (to_camel_case "user_profile") = "user_profile" :=
  ⟨by decide, to_snake_of_to_camel "user_profile" (by decide)⟩

/-- C4.  `Config::merge_with` follows the stated per-field rule: enum fields
always take the right-hand side; the optional message and `output.directory`
take the right-hand side exactly when present; each string naming pattern
takes the right-hand side only when it differs from its hardcoded default;
both booleans always take the right-hand side. -/
theorem config_merge_with_rule (c₁ c₂ : Config) :
    (c₁.merge_with c₂).field_naming_strategy = c₂.field_naming_strategy ∧
    (c₁.merge_with c₂).absent_field_mode = c₂.absent_field_mode ∧
    (c₁.merge_with c₂).decoder_unknown_variant_message =
      (match c₂.decoder_unknown_variant_message with
       | some v => some v
       | none => c₁.decoder_unknown_variant_message) ∧
    (c₁.merge_with c₂).output.directory =
      (match c₂.output.directory with
       | some v => some v
       | none => c₁.output.directory) ∧
    (c₁.merge_with c₂).output.generated_file_naming =
      (if c₂.output.generated_file_naming = default_generated_file_naming then
        c₁.output.generated_file_naming
      else
        c₂.output.generated_file_naming) ∧
    (c₁.merge_with c₂).output.encode_module_naming =
      (if c₂.output.encode_module_naming = default_encode_module_naming then
        c₁.output.encode_module_naming
      else
        c₂.output.encode_module_naming) ∧
    (c₁.merge_with c₂).output.decode_module_naming =
      (if c₂.output.decode_module_naming = default_decode_module_naming then
        c₁.output.decode_module_naming
      else
        c₂.output.decode_module_naming) ∧
    (c₁.merge_with c₂).fn_naming.encoder_function_naming =
      (if c₂.fn_naming.encoder_function_naming = default_encoder_function_naming then
        c₁.fn_naming.encoder_function_naming
      else
        c₂.fn_naming.encoder_function_naming) ∧
    (c₁.merge_with c₂).fn_naming.decoder_function_naming =
      (if c₂.fn_naming.decoder_function_naming = default_decoder_function_naming then
        c₁.fn_naming.decoder_function_naming
      else
        c₂.fn_naming.decoder_function_naming) ∧
    (c₁.merge_with c₂).output.separate_files = c₂.output.separate_files ∧
    (c₁.merge_with c₂).output.separate_encoder_decoder =
      c₂.output.separate_encoder_decoder := by
  refine ⟨rfl, rfl, ?_, ?_, ?_, ?_, ?_, ?_, ?_, rfl, rfl⟩
  · show c₂.decoder_unknown_variant_message.or c₁.decoder_unknown_variant_message = _
    cases c₂.decoder_unknown_variant_message <;> rfl
  · show c₂.output.directory.or c₁.output.directory = _
    cases c₂.output.directory <;> rfl
  all_goals
    simp only [Config.merge_with, OutputConfig.merge_with, FnNamingConfig.merge_with,
      ne_eq, ite_not]

/-- C6.  Rendering `\x7btype_snake\x7d_to_\x7bbackend\x7d` for `UserProfile`
and backend `json` yields `user_profile_to_json`; and when a type requests
more than one distinct backend while the active encoder pattern has no
backend placeholder, the name registered in pass 1 and the name emitted in
pass 2 are both the rendered pattern with `_` and the backend identifier
appended. -/
theorem encoder_naming_rule (fn_naming : FnNamingConfig) (type_name : String)
    (encoder_ids : List String) (bid : String)
    (hmulti : 1 < (unique_backend_ids encoder_ids).length)
    (hnoph : containsStr fn_naming.encoder_function_naming "\x7bbackend" = false)
    (hbid : bid ∈ unique_backend_ids encoder_ids) :
    encoder_fn_name_pass2 fn_naming type_name bid encoder_ids =
        fn_naming.render_encoder_fn_name type_name bid ++ "_" ++ bid ∧
      (bid, fn_naming.render_encoder_fn_name type_name bid ++ "_" ++ bid) ∈
        encoder_fn_names_pass1 fn_naming type_name encoder_ids ∧
      render_fn_pattern "\x7btype_snake\x7d_to_\x7bbackend\x7d" "UserProfile" (some "json") =
        "user_profile_to_json" := by
  refine ⟨?_, ?_, by decide⟩
  · unfold encoder_fn_name_pass2
    rw [hnoph]
    simp [decide_eq_true hmulti]
  · unfold encoder_fn_names_pass1
    rw [List.mem_map]
    refine ⟨bid, hbid, ?_⟩
    rw [hnoph]
    simp only [Bool.not_false, Bool.and_true, decide_eq_true (by simpa using hmulti),
      Bool.true_and, if_pos rfl]
    simp

/-- C6 witness: two distinct backends with a pattern lacking a backend
placeholder. -/
theorem encoder_naming_rule_witness :
    1 < (unique_backend_ids ["json", "cbor"]).length ∧
      containsStr "encode_\x7btype_snake\x7d" "\x7bbackend" = false ∧
      "json" ∈ unique_backend_ids ["json", "cbor"] ∧
      (encoder_fn_name_pass2
          ⟨"encode_\x7btype_snake\x7d", default_decoder_function_naming⟩
          "UserProfile" "json" ["json", "cbor"] =
        FnNamingConfig.render_encoder_fn_name
            ⟨"encode_\x7btype_snake\x7d", default_decoder_function_naming⟩
            "UserProfile" "json" ++ "_" ++ "json" ∧
      ("json",
          FnNamingConfig.render_encoder_fn_name
              ⟨"encode_\x7btype_snake\x7d", default_decoder_function_naming⟩
              "UserProfile" "json" ++ "_" ++ "json") ∈
        encoder_fn_names_pass1
          ⟨"encode_\x7btype_snake\x7d", default_decoder_function_naming⟩
          "UserProfile" ["json", "cbor"] ∧
      render_fn_pattern "\x7btype_snake\x7d_to_\x7bbackend\x7d" "UserProfile" (some "json") =
        "user_profile_to_json") :=
  ⟨by decide, by decide, by decide,
    encoder_naming_rule
      ⟨"encode_\x7btype_snake\x7d", default_decoder_function_naming⟩
      "UserProfile" ["json", "cbor"] "json" (by decide) (by decide) (by decide)⟩

/-- C8.  The alias check on a unit's merged import map raises no error exactly
when no import binds the alias `option` to a module other than
`gleam/option`; when it fails, the hard error names a conflicting module. -/
theorem option_alias_conflict_rule (imports : Imports) :
    (ensure_no_option_alias_conflict imports = .ok () ↔
      ∀ p ∈ imports, ¬ optionAliasConflict p.2) ∧
    (∀ e, ensure_no_option_alias_conflict imports = .error (.GenerationError e) →
      ∃ p ∈ imports, optionAliasConflict p.2 ∧ containsStr e p.2.module_path = true) := by
  induction imports with
  | nil =>
    constructor
    · simp [ensure_no_option_alias_conflict]
    · intro e he
      simp [ensure_no_option_alias_conflict] at he
  | cons hd rest ih =>
    obtain ⟨p0, entry⟩ := hd
    by_cases hc : optionAliasConflict entry
    · constructor
      · constructor
        · intro hok
          rw [ensure_no_option_alias_conflict, if_pos hc] at hok
          exact absurd hok (by simp)
        · intro hall
          exact absurd hc (hall (p0, entry) (by simp))
      · intro e he
        rw [ensure_no_option_alias_conflict, if_pos hc] at he
        refine ⟨(p0, entry), by simp, hc, ?_⟩
        simp only [Except.error.injEq, GlossError.GenerationError.injEq] at he
        refine containsStr_of_eq e
          "Cannot generate code because import alias `option` is already used for `"
          entry.module_path
          "`. Rename the conflicting import or its alias before running gloss." ?_
        rw [← he]
    · constructor
      · rw [ensure_no_option_alias_conflict, if_neg hc]
        constructor
        · intro hok p hp
          rcases List.mem_cons.mp hp with h0 | h0
          · rw [h0]; exact hc
          · exact (ih.1.mp hok) p h0
        · intro hall
          exact ih.1.mpr (fun p hp => hall p (List.mem_cons_of_mem _ hp))
      · intro e he
        rw [ensure_no_option_alias_conflict, if_neg hc] at he
        obtain ⟨p, hp, hcp, hcont⟩ := ih.2 e he
        exact ⟨p, List.mem_cons_of_mem _ hp, hcp, hcont⟩

/-- C7 counterexample: the missing-dependency error does not name the
backend.  For a backend named `quux` requiring `gleam/json`, against an
empty manifest, the check fails naming `gleam/json` but the message does not
contain the backend name `quux` — refuting "a GenerationError that names
both the backend and the missing package" as stated. -/
theorem dependency_error_omits_backend_name :
    (∃ m, ensure_backend_dependencies ⟨[], []⟩
        { jsonBackend with name := "quux" } = .error (.GenerationError m) ∧
      containsStr m "gleam/json" = true ∧ containsStr m "quux" = false) :=
  ⟨"Generating encoders requires the `gleam/json` dependency. Add `gleam/json = \"~> 1\"` (or your preferred version) to gleam.toml.",
    rfl, by decide, by decide⟩

/-- C2.  The generated field decoder uses `decode.optional_field` exactly
when the field's marker is `Optional`, or the marker is `Default`, the
project's absent-field mode is `MaybeAbsent`, and the declared type is
literally the `gleam/option` `Option` wrapper; in every other case it uses
`decode.field`. -/
theorem field_decoder_presence (field : FieldInfo) (field_naming : FieldNamingConvention)
    (config : Config) (registry : TypeRegistry) (current_module_path : String)
    (nesting : Nat) (imports : Imports) (uses : Bool) (td : String) (imports2 : Imports)
    (hopt : field.is_option = isOptionTypeExpr field.type_expr)
    (htd : generate_type_decoder registry current_module_path field.type_expr
      field.decoder_with imports = .ok (td, imports2)) :
    (is_optional_field field.marker config.absent_field_mode field.is_option = true ↔
      (field.marker = .Optional ∨
        (field.marker = .Default ∧ config.absent_field_mode = .MaybeAbsent ∧
          isOptionTypeExpr field.type_expr = true))) ∧
    generate_field_decoder field field_naming config registry current_module_path nesting
        imports uses =
      .ok
        (if is_optional_field field.marker config.absent_field_mode field.is_option then
          (spaces nesting ++ "use " ++ field.label ++ " <- decode.optional_field(\"" ++
            (match field.custom_name with
             | some n => n
             | none => convert_field_name field.label field_naming) ++
            "\", option.None, " ++ td ++ ")", imports2, true)
        else
          (spaces nesting ++ "use " ++ field.label ++ " <- decode.field(\"" ++
            (match field.custom_name with
             | some n => n
             | none => convert_field_name field.label field_naming) ++
            "\", " ++ td ++ ")", imports2, uses)) := by
  constructor
  · cases hm : field.marker <;> cases ha : config.absent_field_mode <;>
      simp [is_optional_field, hopt]
  · unfold generate_field_decoder
    rw [htd]
    cases h : is_optional_field field.marker config.absent_field_mode field.is_option <;>
      simp [h, bind, Except.bind]

/-- C2 witness: the `Settings.threshold` field (`Option(Int)`, `Default`
marker) under `MaybeAbsent`, decoded with `decode.optional_field`. -/
theorem field_decoder_presence_witness :
    exThresholdField.is_option = isOptionTypeExpr exThresholdField.type_expr ∧
    generate_type_decoder [] "settings" exThresholdField.type_expr
        exThresholdField.decoder_with [] = .ok ("decode.optional(decode.int)", []) ∧
    ((is_optional_field exThresholdField.marker exMaybeAbsentConfig.absent_field_mode
        exThresholdField.is_option = true ↔
      (exThresholdField.marker = .Optional ∨
        (exThresholdField.marker = .Default ∧
          exMaybeAbsentConfig.absent_field_mode = .MaybeAbsent ∧
          isOptionTypeExpr exThresholdField.type_expr = true))) ∧
    generate_field_decoder exThresholdField .SnakeCase exMaybeAbsentConfig [] "settings"
        2 [] false =
      .ok
        (if is_optional_field exThresholdField.marker
            exMaybeAbsentConfig.absent_field_mode exThresholdField.is_option then
          (spaces 2 ++ "use " ++ exThresholdField.label ++
            " <- decode.optional_field(\"" ++
            (match exThresholdField.custom_name with
             | some n => n
             | none => convert_field_name exThresholdField.label .SnakeCase) ++
            "\", option.None, " ++ "decode.optional(decode.int)" ++ ")", [], true)
        else
          (spaces 2 ++ "use " ++ exThresholdField.label ++ " <- decode.field(\"" ++
            (match exThresholdField.custom_name with
             | some n => n
             | none => convert_field_name exThresholdField.label .SnakeCase) ++
            "\", " ++ "decode.optional(decode.int)" ++ ")", [], false))) :=
  ⟨rfl, rfl,
    field_decoder_presence exThresholdField .SnakeCase exMaybeAbsentConfig [] "settings"
      2 [] false "decode.optional(decode.int)" [] rfl rfl⟩


/-- All-zero-field constructors with the disable-tag flag unset plan
`PlainString` (`determine_encoding_mode`). -/
theorem determine_encoding_mode_all_empty (constructors : List ConstructorInfo)
    (ti : CustomTypeInfo) (hall : constructors.all (fun c => c.fields.isEmpty) = true)
    (hdis : ti.disable_type_tag = false) :
    determine_encoding_mode constructors ti = .PlainString := by
  unfold determine_encoding_mode
  rw [hdis]
  simp only [Bool.false_eq_true, if_false]
  cases constructors with
  | nil => simp
  | cons c rest =>
    cases rest with
    | nil =>
      simp only [List.all_cons, List.all_nil, Bool.and_true] at hall
      simp [hall]
    | cons c2 rest2 => simp [hall]

/-- In `PlainString` mode the multi-constructor decoder never consults the
discriminant key: its output is independent of `type_tag_field`. -/
theorem gmcd_tag_indep (constructors : List ConstructorInfo)
    (field_naming : FieldNamingConvention) (t1 t2 : String) (config : Config)
    (registry : TypeRegistry) (current_module_path : String)
    (default_value_expr expected_message : String) (imports : Imports) (uses : Bool) :
    generate_multi_constructor_decoder constructors .PlainString field_naming t1 config
        registry current_module_path default_value_expr expected_message imports uses =
      generate_multi_constructor_decoder constructors .PlainString field_naming t2 config
        registry current_module_path default_value_expr expected_message imports uses := by
  unfold generate_multi_constructor_decoder
  simp

/-- In `PlainString` mode a per-variant encoder body is independent of
`type_tag_field`. -/
theorem gceb_tag_indep (constructor : ConstructorInfo)
    (field_naming : FieldNamingConvention) (t1 t2 : String)
    (encoder_type : EncoderType) (backend : EncoderBackend) (registry : TypeRegistry)
    (current_module_path : String) (nesting : Nat) (imports : Imports) :
    generate_constructor_encoder_body constructor .PlainString field_naming t1
        encoder_type backend registry current_module_path nesting imports =
      generate_constructor_encoder_body constructor .PlainString field_naming t2
        encoder_type backend registry current_module_path nesting imports := by
  unfold generate_constructor_encoder_body
  simp

theorem gec_tag_indep (constructors : List ConstructorInfo)
    (field_naming : FieldNamingConvention) (t1 t2 : String)
    (encoder_type : EncoderType) (backend : EncoderBackend) (registry : TypeRegistry)
    (current_module_path : String) (imports : Imports) :
    generate_encoder_cases .PlainString field_naming t1 encoder_type backend registry
        current_module_path constructors imports =
      generate_encoder_cases .PlainString field_naming t2 encoder_type backend registry
        current_module_path constructors imports := by
  induction constructors generalizing imports with
  | nil => rfl
  | cons c rest ih =>
    unfold generate_encoder_cases
    rw [gceb_tag_indep c field_naming t1 t2]
    cases hb : generate_constructor_encoder_body c .PlainString field_naming t2
        encoder_type backend registry current_module_path 4 imports with
    | error e => simp [bind, Except.bind]
    | ok v =>
      simp only [bind, Except.bind]
      rw [ih v.2]

theorem gmce_tag_indep (constructors : List ConstructorInfo) (arg_name : String)
    (field_naming : FieldNamingConvention) (t1 t2 : String)
    (encoder_type : EncoderType) (backend : EncoderBackend) (registry : TypeRegistry)
    (current_module_path : String) (imports : Imports) :
    generate_multi_constructor_encoder constructors arg_name .PlainString field_naming
        t1 encoder_type backend registry current_module_path imports =
      generate_multi_constructor_encoder constructors arg_name .PlainString field_naming
        t2 encoder_type backend registry current_module_path imports := by
  unfold generate_multi_constructor_encoder
  rw [gec_tag_indep constructors field_naming t1 t2]

theorem gsce_tag_indep (constructor : ConstructorInfo) (arg_name : String)
    (field_naming : FieldNamingConvention) (t1 t2 : String)
    (encoder_type : EncoderType) (backend : EncoderBackend) (registry : TypeRegistry)
    (current_module_path : String) (nesting : Nat) (imports : Imports) :
    generate_single_constructor_encoder constructor arg_name .PlainString field_naming
        t1 encoder_type backend registry current_module_path nesting imports =
      generate_single_constructor_encoder constructor arg_name .PlainString field_naming
        t2 encoder_type backend registry current_module_path nesting imports := by
  unfold generate_single_constructor_encoder
  simp


/-- C1 (amended).  For a type whose constructors all carry zero fields and
whose disable-tag flag is NOT set, the planner selects `PlainString`, and the
generated decoder and encoder never reference a discriminant key: their
output is invariant under the type's `type_tag_field` setting. -/
theorem plain_string_planner (ti : CustomTypeInfo)
    (hall : ti.constructors.all (fun c => c.fields.isEmpty) = true)
    (hdis : ti.disable_type_tag = false) :
    determine_encoding_mode ti.constructors ti = .PlainString ∧
    (∀ t1 t2 cfg reg imps lookup msg,
      generate_decoder { ti with type_tag_field := t1 } cfg reg imps lookup msg =
        generate_decoder { ti with type_tag_field := t2 } cfg reg imps lookup msg) ∧
    (∀ t1 t2 et cfg reg backend imps,
      generate_encoder { ti with type_tag_field := t1 } et cfg reg backend imps =
        generate_encoder { ti with type_tag_field := t2 } et cfg reg backend imps) := by
  obtain ⟨n, cs, encs, gd, fns, mn, mp, ttf, dtt, oo, uvm, fno, oa⟩ := ti
  refine ⟨determine_encoding_mode_all_empty _ _ hall hdis, ?_, ?_⟩
  · intro t1 t2 cfg reg imps lookup msg
    cases cs with
    | nil =>
      have h1 := determine_encoding_mode_all_empty []
        (CustomTypeInfo.mk n [] encs gd fns mn mp t1 dtt oo uvm fno oa) hall hdis
      have h2 := determine_encoding_mode_all_empty []
        (CustomTypeInfo.mk n [] encs gd fns mn mp t2 dtt oo uvm fno oa) hall hdis
      have hd : default_value_for_type
          (CustomTypeInfo.mk n [] encs gd fns mn mp t1 dtt oo uvm fno oa) lookup imps
            false =
        default_value_for_type
          (CustomTypeInfo.mk n [] encs gd fns mn mp t2 dtt oo uvm fno oa) lookup imps
            false := rfl
      unfold generate_decoder
      simp only [h1, h2, hd]
      rw [gmcd_tag_indep _ _ (t1.getD "type") (t2.getD "type") _ _ _ _ _ _ _]
    | cons c rest =>
      cases rest with
      | nil => rfl
      | cons c2 rest2 =>
        have h1 := determine_encoding_mode_all_empty (c :: c2 :: rest2)
          (CustomTypeInfo.mk n (c :: c2 :: rest2) encs gd fns mn mp t1 dtt oo uvm fno oa)
          hall hdis
        have h2 := determine_encoding_mode_all_empty (c :: c2 :: rest2)
          (CustomTypeInfo.mk n (c :: c2 :: rest2) encs gd fns mn mp t2 dtt oo uvm fno oa)
          hall hdis
        have hd : default_value_for_type
            (CustomTypeInfo.mk n (c :: c2 :: rest2) encs gd fns mn mp t1 dtt oo uvm fno
              oa) lookup imps false =
          default_value_for_type
            (CustomTypeInfo.mk n (c :: c2 :: rest2) encs gd fns mn mp t2 dtt oo uvm fno
              oa) lookup imps false := rfl
        unfold generate_decoder
        simp only [h1, h2, hd]
        rw [gmcd_tag_indep _ _ (t1.getD "type") (t2.getD "type") _ _ _ _ _ _ _]
  · intro t1 t2 et cfg reg backend imps
    cases cs with
    | nil =>
      have h1 := determine_encoding_mode_all_empty []
        (CustomTypeInfo.mk n [] encs gd fns mn mp t1 dtt oo uvm fno oa) hall hdis
      have h2 := determine_encoding_mode_all_empty []
        (CustomTypeInfo.mk n [] encs gd fns mn mp t2 dtt oo uvm fno oa) hall hdis
      unfold generate_encoder
      simp only [h1, h2]
      rw [gmce_tag_indep _ _ _ (t1.getD "type") (t2.getD "type") _ _ _ _ _]
    | cons c rest =>
      cases rest with
      | nil =>
        have h1 := determine_encoding_mode_all_empty [c]
          (CustomTypeInfo.mk n [c] encs gd fns mn mp t1 dtt oo uvm fno oa) hall hdis
        have h2 := determine_encoding_mode_all_empty [c]
          (CustomTypeInfo.mk n [c] encs gd fns mn mp t2 dtt oo uvm fno oa) hall hdis
        unfold generate_encoder
        simp only [h1, h2]
        rw [gsce_tag_indep _ _ _ (t1.getD "type") (t2.getD "type") _ _ _ _ _ _]
      | cons c2 rest2 =>
        have h1 := determine_encoding_mode_all_empty (c :: c2 :: rest2)
          (CustomTypeInfo.mk n (c :: c2 :: rest2) encs gd fns mn mp t1 dtt oo uvm fno oa)
          hall hdis
        have h2 := determine_encoding_mode_all_empty (c :: c2 :: rest2)
          (CustomTypeInfo.mk n (c :: c2 :: rest2) encs gd fns mn mp t2 dtt oo uvm fno oa)
          hall hdis
        unfold generate_encoder
        simp only [h1, h2]
        rw [gmce_tag_indep _ _ _ (t1.getD "type") (t2.getD "type") _ _ _ _ _]

set_option maxRecDepth 20000 in
/-- C1 counterexample: for a type whose constructors all carry zero fields
but whose `no_type_tag` directive is set, the planner selects
`ObjectWithNoTypeTag`, not `PlainString`, and the generated decoder DOES
reference the discriminant key (`decode.field("type", ...)`). -/
theorem plain_string_planner_counterexample :
    determine_encoding_mode exStatusNoTag.constructors exStatusNoTag =
        .ObjectWithNoTypeTag ∧
    determine_encoding_mode exStatusNoTag.constructors exStatusNoTag ≠ .PlainString ∧
    (∃ out imports,
      generate_decoder exStatusNoTag Config.default [] [] [] none = .ok (out, imports) ∧
      containsStr out.code "decode.field(\"type\"" = true) := by
  refine ⟨by decide, by decide, ?_⟩
  refine ⟨⟨"pub fn status_decoder() -> decode.Decoder(Status) \x7b\n  use variant <- decode.field(\"type\", decode.string)\n  case variant \x7b\n    \"active\" -> \x7b\n  decode.success(Active)\n\x7d\n    \"inactive\" -> \x7b\n  decode.success(Inactive)\n\x7d\n    _ -> decode.failure(panic(\"No default value for Status\"), \"one of active, inactive\")\n  \x7d\n\x7d", false⟩, [], by decide, by decide⟩

set_option maxRecDepth 20000 in
/-- C1 witness: the concrete two-variant payload-free `Status` type with the
tag enabled — `PlainString` mode, tag-key-independent decoder and encoder,
and the concrete generated code contains neither `decode.field(` nor any
object entry. -/
theorem plain_string_planner_witness :
    exStatusPlain.constructors.all (fun c => c.fields.isEmpty) = true ∧
    exStatusPlain.disable_type_tag = false ∧
    (determine_encoding_mode exStatusPlain.constructors exStatusPlain = .PlainString ∧
      (∀ t1 t2 cfg reg imps lookup msg,
        generate_decoder { exStatusPlain with type_tag_field := t1 } cfg reg imps lookup
            msg =
          generate_decoder { exStatusPlain with type_tag_field := t2 } cfg reg imps
            lookup msg) ∧
      (∀ t1 t2 et cfg reg backend imps,
        generate_encoder { exStatusPlain with type_tag_field := t1 } et cfg reg backend
            imps =
          generate_encoder { exStatusPlain with type_tag_field := t2 } et cfg reg
            backend imps)) ∧
    (∃ out imports,
      generate_decoder exStatusPlain Config.default [] [] [] none = .ok (out, imports) ∧
      containsStr out.code "decode.field(" = false) ∧
    (∃ code imports,
      generate_encoder exStatusPlain .Json Config.default [] jsonBackend [] =
        .ok (code, imports) ∧
      containsStr code "#(" = false ∧ containsStr code "json.object" = false) :=
  ⟨by decide, by decide,
    plain_string_planner exStatusPlain (by decide) (by decide),
    ⟨⟨"pub fn status_decoder() -> decode.Decoder(Status) \x7b\n  use variant <- decode.then(decode.string)\n  case variant \x7b\n    \"active\" -> \x7b\n  decode.success(Active)\n\x7d\n    \"inactive\" -> \x7b\n  decode.success(Inactive)\n\x7d\n    _ -> decode.failure(panic(\"No default value for Status\"), \"one of active, inactive\")\n  \x7d\n\x7d", false⟩, [], by decide, by decide⟩,
    ⟨"pub fn status_to_json(status: Status) -> json.Json \x7b\n  case status \x7b\n    Active -> json.string(\"active\")\n    Inactive -> json.string(\"inactive\")\n  \x7d\n\x7d", [], by decide, by decide, by decide⟩⟩


set_option maxRecDepth 20000 in
/-- C3 failing input.  `T = A(x: Int) | B` has two constructors, one
carrying a field, tag not disabled, so the mode is `ObjectWithTypeTag` and
the payload variant `A` gets the discriminant pair first — but the generated
per-variant encoder for the zero-field variant `B` emits `json.object([])`
with NO discriminant entry (its `fields.is_empty` early return runs before
the tag is pushed), while the generated decoder consults
`decode.field("type", ...)` for every variant.  The claim's "every generated
per-variant encoder places the discriminant pair first" is violated at `B`,
and a value encoded at `B` cannot be decoded by the generated decoder. -/
theorem mixed_variant_encoder_missing_discriminant :
    determine_encoding_mode exMixed.constructors exMixed = .ObjectWithTypeTag ∧
    generate_constructor_encoder_pairs exCtorA .ObjectWithTypeTag .SnakeCase "type"
        .Json jsonBackend [] "m" [] =
      .ok ([("type", "json.string(\"a\")"), ("x", "json.int(x)")], []) ∧
    generate_constructor_encoder_body exCtorB .ObjectWithTypeTag .SnakeCase "type"
        .Json jsonBackend [] "m" 4 [] =
      .ok ("    json.object([])", []) ∧
    (∃ code imports,
      generate_encoder exMixed .Json Config.default [] jsonBackend [] =
        .ok (code, imports) ∧
      containsStr code "B -> json.object([])" = true ∧
      containsStr "    json.object([])" "type" = false) ∧
    (∃ out imports,
      generate_decoder exMixed Config.default [] [] [] none = .ok (out, imports) ∧
      containsStr out.code "decode.field(\"type\"" = true) := by
  refine ⟨by decide, by decide, by decide, ?_, ?_⟩
  · exact ⟨"pub fn t_to_json(t: T) -> json.Json \x7b\n  case t \x7b\n    A(x:) -> json.object([\n      #(\"type\", json.string(\"a\")),\n      #(\"x\", json.int(x))\n    ])\n    B -> json.object([])\n  \x7d\n\x7d", [], by decide, by decide, by decide⟩
  · exact ⟨⟨"pub fn t_decoder() -> decode.Decoder(T) \x7b\n  use variant <- decode.field(\"type\", decode.string)\n  case variant \x7b\n    \"a\" -> \x7b\n      use x <- decode.field(\"x\", decode.int)\n      decode.success(A(x:))\n    \x7d\n    \"b\" -> \x7b\n  decode.success(B)\n\x7d\n    _ -> decode.failure(panic(\"No default value for T\"), \"one of a, b\")\n  \x7d\n\x7d", false⟩, [], by decide, by decide⟩


theorem filter_length_mono {a : Type} (l : List a) (p q : a → Bool)
    (h : ∀ x, p x = true → q x = true) :
    (l.filter p).length ≤ (l.filter q).length := by
  induction l with
  | nil => simp
  | cons x rest ih =>
    by_cases hp : p x = true
    · rw [List.filter_cons_of_pos hp, List.filter_cons_of_pos (h x hp)]
      simpa using ih
    · rw [List.filter_cons_of_neg (by simpa using hp)]
      by_cases hq : q x = true
      · rw [List.filter_cons_of_pos hq]
        simp only [List.length_cons]
        omega
      · rw [List.filter_cons_of_neg (by simpa using hq)]
        exact ih

theorem unvisitedCount_mono (type_lookup : TypeLookup)
    (v w : List (String × String)) (h : v ⊆ w) :
    unvisitedCount type_lookup w ≤ unvisitedCount type_lookup v := by
  refine filter_length_mono _ _ _ ?_
  intro x hx
  simp only [decide_eq_true_eq] at hx ⊢
  intro hmem
  exact hx (h hmem)

theorem filter_length_strict {a : Type} (l : List a) (p q : a → Bool)
    (h : ∀ x, p x = true → q x = true) (y : a) (hy : y ∈ l)
    (hq : q y = true) (hp : p y = false) :
    (l.filter p).length < (l.filter q).length := by
  induction l with
  | nil => simp at hy
  | cons x rest ih =>
    rcases List.mem_cons.mp hy with rfl | hmem
    · rw [List.filter_cons_of_pos hq, List.filter_cons_of_neg (by simp [hp])]
      have := filter_length_mono rest p q h
      simp only [List.length_cons]
      omega
    · by_cases hpx : p x = true
      · rw [List.filter_cons_of_pos hpx, List.filter_cons_of_pos (h x hpx)]
        simpa using ih hmem
      · rw [List.filter_cons_of_neg (by simpa using hpx)]
        by_cases hqx : q x = true
        · rw [List.filter_cons_of_pos hqx]
          have := ih hmem
          simp only [List.length_cons]
          omega
        · rw [List.filter_cons_of_neg (by simpa using hqx)]
          exact ih hmem

theorem lookup_get_mem_keys (type_lookup : TypeLookup) (key : String × String)
    (ti : CustomTypeInfo) (h : lookup_get type_lookup key = some ti) :
    key ∈ type_lookup.map Prod.fst := by
  induction type_lookup with
  | nil => simp [lookup_get] at h
  | cons kv rest ih =>
    rw [lookup_get] at h
    by_cases hk : key = kv.1
    · simp [hk]
    · rw [if_neg hk] at h
      simp only [List.map_cons, List.mem_cons]
      exact Or.inr (ih h)

theorem unvisitedCount_insert_lt (type_lookup : TypeLookup)
    (v : List (String × String)) (key : String × String)
    (hk : key ∈ type_lookup.map Prod.fst) (hv : key ∉ v) :
    unvisitedCount type_lookup (key :: v) < unvisitedCount type_lookup v := by
  refine filter_length_strict _ _ _ ?_ key hk ?_ ?_
  · intro x hx
    simp only [decide_eq_true_eq, List.mem_cons] at hx ⊢
    intro hmem
    exact hx (Or.inr hmem)
  · simpa using hv
  · simp

mutual

theorem default_value_for_type_expr_ok (type_lookup : TypeLookup) (fuel : Nat)
    (bd : DescendFn) (hbd : DescendOk type_lookup fuel bd)
    (cm ctx : String) (e : TypeExpression) (st : SynthState)
    (hcount : unvisitedCount type_lookup st.visited < fuel) :
    ∃ s st', default_value_for_type_expr bd cm ctx type_lookup e st = .ok (s, st') ∧
      st.visited ⊆ st'.visited ∧
      unvisitedCount type_lookup st'.visited ≤ unvisitedCount type_lookup st.visited := by
  cases e with
  | Constructor module name arguments =>
    rw [default_value_for_type_expr]
    by_cases h1 : name = "String"
    · exact ⟨_, st, by rw [if_pos h1], List.Subset.refl _, le_refl _⟩
    · rw [if_neg h1]
      by_cases h2 : name = "Int"
      · exact ⟨_, st, by rw [if_pos h2], List.Subset.refl _, le_refl _⟩
      · rw [if_neg h2]
        by_cases h3 : name = "Float"
        · exact ⟨_, st, by rw [if_pos h3], List.Subset.refl _, le_refl _⟩
        · rw [if_neg h3]
          by_cases h4 : name = "Bool"
          · exact ⟨_, st, by rw [if_pos h4], List.Subset.refl _, le_refl _⟩
          · rw [if_neg h4]
            by_cases h5 : name = "List" ∧ arguments.length = 1
            · exact ⟨_, st, by rw [if_pos h5], List.Subset.refl _, le_refl _⟩
            · rw [if_neg h5]
              by_cases h6 : name = "Option" ∧ arguments.length = 1 ∧
                  module = some "gleam/option"
              · exact ⟨_, { st with uses_option_helpers := true },
                  by rw [if_pos h6], List.Subset.refl _, le_refl _⟩
              · rw [if_neg h6]
                obtain ⟨res, st', hbd', hsub, hle⟩ :=
                  hbd (module.getD cm) name ctx st hcount
                rw [hbd']
                cases res with
                | some s => exact ⟨s, st', rfl, hsub, hle⟩
                | none => exact ⟨_, st', rfl, hsub, hle⟩
  | Tuple elements =>
    obtain ⟨vs, st', hrun, hsub, hle⟩ :=
      default_tuple_values_ok type_lookup fuel bd hbd cm ctx elements st hcount
    refine ⟨"#(" ++ String.intercalate ", " vs ++ ")", st', ?_, hsub, hle⟩
    rw [default_value_for_type_expr, hrun]
    rfl
  | Function args ret =>
    exact ⟨_, st, by rw [default_value_for_type_expr], List.Subset.refl _, le_refl _⟩
  | Var v =>
    exact ⟨_, st, by rw [default_value_for_type_expr], List.Subset.refl _, le_refl _⟩
  | Hole =>
    exact ⟨_, st, by rw [default_value_for_type_expr], List.Subset.refl _, le_refl _⟩

theorem default_tuple_values_ok (type_lookup : TypeLookup) (fuel : Nat)
    (bd : DescendFn) (hbd : DescendOk type_lookup fuel bd)
    (cm ctx : String) (elements : List TypeExpression) (st : SynthState)
    (hcount : unvisitedCount type_lookup st.visited < fuel) :
    ∃ vs st', default_tuple_values bd cm ctx type_lookup elements st = .ok (vs, st') ∧
      st.visited ⊆ st'.visited ∧
      unvisitedCount type_lookup st'.visited ≤ unvisitedCount type_lookup st.visited := by
  cases elements with
  | nil =>
    exact ⟨[], st, by rw [default_tuple_values], List.Subset.refl _, le_refl _⟩
  | cons e rest =>
    obtain ⟨v, st1, h1, hsub1, hle1⟩ :=
      default_value_for_type_expr_ok type_lookup fuel bd hbd cm ctx e st hcount
    obtain ⟨vs, st2, h2, hsub2, hle2⟩ :=
      default_tuple_values_ok type_lookup fuel bd hbd cm ctx rest st1
        (lt_of_le_of_lt hle1 hcount)
    refine ⟨v :: vs, st2, ?_, List.Subset.trans hsub1 hsub2, le_trans hle2 hle1⟩
    rw [default_tuple_values, h1]
    simp only [bind, Except.bind]
    rw [h2]

end


theorem default_field_values_ok (type_lookup : TypeLookup) (fuel : Nat)
    (bd : DescendFn) (hbd : DescendOk type_lookup fuel bd)
    (cm ctx : String) (fields : List FieldInfo) (st : SynthState)
    (hcount : unvisitedCount type_lookup st.visited < fuel) :
    ∃ vs st', default_field_values bd cm ctx type_lookup fields st = .ok (vs, st') ∧
      st.visited ⊆ st'.visited ∧
      unvisitedCount type_lookup st'.visited ≤ unvisitedCount type_lookup st.visited := by
  induction fields generalizing st with
  | nil =>
    exact ⟨[], st, by rw [default_field_values], List.Subset.refl _, le_refl _⟩
  | cons f rest ih =>
    obtain ⟨v, st1, h1, hsub1, hle1⟩ :=
      default_value_for_type_expr_ok type_lookup fuel bd hbd cm ctx f.type_expr st
        hcount
    obtain ⟨vs, st2, h2, hsub2, hle2⟩ := ih st1 (lt_of_le_of_lt hle1 hcount)
    refine ⟨constructor_argument f v :: vs, st2, ?_, List.Subset.trans hsub1 hsub2,
      le_trans hle2 hle1⟩
    rw [default_field_values, h1]
    simp only [bind, Except.bind]
    rw [h2]

theorem build_constructor_expression_ok (type_lookup : TypeLookup) (fuel : Nat)
    (bd : DescendFn) (hbd : DescendOk type_lookup fuel bd)
    (constructor : ConstructorInfo) (cm ctx : String) (st : SynthState)
    (hcount : unvisitedCount type_lookup st.visited < fuel) :
    ∃ s st', build_constructor_expression bd constructor cm ctx type_lookup st =
        .ok (s, st') ∧
      st.visited ⊆ st'.visited ∧
      unvisitedCount type_lookup st'.visited ≤ unvisitedCount type_lookup st.visited := by
  by_cases hcm : cm = ctx
  all_goals by_cases hempty : constructor.fields.isEmpty = true
  · exact ⟨constructor.name, st,
      by rw [build_constructor_expression]; simp only [if_pos hcm, if_pos hempty],
      List.Subset.refl _, le_refl _⟩
  · obtain ⟨vs, st2, h2, hsub2, hle2⟩ :=
      default_field_values_ok type_lookup fuel bd hbd cm ctx constructor.fields st
        hcount
    refine ⟨constructor.name ++ "(" ++ String.intercalate ", " vs ++ ")", st2, ?_,
      hsub2, hle2⟩
    rw [build_constructor_expression]
    simp only [if_pos hcm, if_neg hempty]
    rw [h2]
    rfl
  · refine ⟨(ensure_import st.imports cm).1 ++ "." ++ constructor.name,
      { st with imports := (ensure_import st.imports cm).2 }, ?_,
      List.Subset.refl _, le_refl _⟩
    rw [build_constructor_expression]
    simp only [if_neg hcm, if_pos hempty]
  · obtain ⟨vs, st2, h2, hsub2, hle2⟩ :=
      default_field_values_ok type_lookup fuel bd hbd cm ctx constructor.fields
        { st with imports := (ensure_import st.imports cm).2 } hcount
    refine ⟨(ensure_import st.imports cm).1 ++ "." ++ constructor.name ++ "(" ++
      String.intercalate ", " vs ++ ")", st2, ?_, hsub2, hle2⟩
    rw [build_constructor_expression]
    simp only [if_neg hcm, if_neg hempty]
    rw [h2]
    rfl

theorem build_default_for_custom_type_ok (type_lookup : TypeLookup) :
    ∀ fuel, DescendOk type_lookup fuel (build_default_for_custom_type fuel) := by
  intro fuel
  induction fuel with
  | zero =>
    intro tm tn cm st hcount
    omega
  | succ n ih =>
    intro tm tn cm st hcount
    rw [build_default_for_custom_type]
    by_cases hvis : st.visited.contains (tm, tn) = true
    · rw [if_pos hvis]
      exact ⟨none, st, rfl, List.Subset.refl _, le_refl _⟩
    · rw [if_neg hvis]
      have hnotmem : (tm, tn) ∉ st.visited := fun hmem =>
        hvis (List.elem_eq_true_of_mem hmem)
      split
      next hget =>
        refine ⟨none, { st with visited := (tm, tn) :: st.visited }, rfl, ?_, ?_⟩
        · exact fun a ha => List.mem_cons_of_mem _ ha
        · exact unvisitedCount_mono _ _ _ (fun a ha => List.mem_cons_of_mem _ ha)
      next type_info hget =>
        split
        next hhead =>
          refine ⟨none, { st with visited := (tm, tn) :: st.visited }, rfl, ?_, ?_⟩
          · exact fun a ha => List.mem_cons_of_mem _ ha
          · exact unvisitedCount_mono _ _ _ (fun a ha => List.mem_cons_of_mem _ ha)
        next constructor hhead =>
          have hmem := lookup_get_mem_keys type_lookup (tm, tn) type_info hget
          have hlt := unvisitedCount_insert_lt type_lookup st.visited (tm, tn) hmem
            hnotmem
          have hn : unvisitedCount type_lookup ((tm, tn) :: st.visited) < n := by
            omega
          obtain ⟨s, st3, h3, hsub3, hle3⟩ :=
            build_constructor_expression_ok type_lookup n
              (build_default_for_custom_type n) ih constructor tm cm
              { st with visited := (tm, tn) :: st.visited } hn
          simp only []
          rw [h3]
          refine ⟨some s, { st3 with visited := st3.visited.erase (tm, tn) }, rfl,
            ?_, ?_⟩
          · intro a ha
            have hane : a ≠ (tm, tn) := fun heq => hnotmem (heq ▸ ha)
            exact (List.mem_erase_of_ne hane).mpr (hsub3 (List.mem_cons_of_mem _ ha))
          · refine unvisitedCount_mono _ _ _ ?_
            intro a ha
            have hane : a ≠ (tm, tn) := fun heq => hnotmem (heq ▸ ha)
            exact (List.mem_erase_of_ne hane).mpr (hsub3 (List.mem_cons_of_mem _ ha))


/-- C9.  Default-value synthesis terminates on every finite type-lookup
table, cyclic ones included: the fuel `lookup size + 1` supplied by
`default_value_for_type` is never exhausted, so the function always returns
an expression string; and whenever the recursion would re-enter a
(module, type name) pair already on the current descent path, that branch
instead produces the textual placeholder
`panic("No default value for <subject>")`. -/
theorem default_value_synthesis (lookup : TypeLookup) (ti : CustomTypeInfo)
    (imports : Imports) (uses : Bool) (fuel : Nat) (tn cm ctx : String)
    (module : Option String) (args : List TypeExpression) (st : SynthState)
    (hfuel : fuel ≠ 0)
    (hvis : st.visited.contains (module.getD cm, tn) = true)
    (h1 : tn ≠ "String") (h2 : tn ≠ "Int") (h3 : tn ≠ "Float") (h4 : tn ≠ "Bool")
    (h5 : tn ≠ "List") (h6 : tn ≠ "Option") :
    (∃ res st', build_default_for_custom_type (lookup.length + 1) ti.module_path
        ti.name ti.module_path lookup ⟨imports, uses, []⟩ = .ok (res, st') ∧
      default_value_for_type ti lookup imports uses =
        (res.getD (panic_default_message ti.name), st'.imports,
          st'.uses_option_helpers)) ∧
    default_value_for_type_expr (build_default_for_custom_type fuel) cm ctx lookup
        (.Constructor module tn args) st =
      .ok (panic_default_message
        (if module.getD cm = ctx then tn
         else replaceStr (module.getD cm) "/" "." ++ "." ++ tn), st) := by
  constructor
  · have hcount : unvisitedCount lookup ([] : List (String × String)) <
        lookup.length + 1 := by
      have hle : unvisitedCount lookup [] ≤ (lookup.map Prod.fst).length :=
        List.length_filter_le _ _
      rw [List.length_map] at hle
      omega
    obtain ⟨res, st', hok, _, _⟩ :=
      build_default_for_custom_type_ok lookup (lookup.length + 1) ti.module_path
        ti.name ti.module_path ⟨imports, uses, []⟩ hcount
    refine ⟨res, st', hok, ?_⟩
    unfold default_value_for_type
    simp only []
    rw [hok]
  · cases fuel with
    | zero => exact absurd rfl hfuel
    | succ m =>
      have hbd : build_default_for_custom_type (m + 1) (module.getD cm) tn ctx lookup
          st = .ok (none, st) := by
        rw [build_default_for_custom_type, if_pos hvis]
      rw [default_value_for_type_expr]
      rw [if_neg h1, if_neg h2, if_neg h3, if_neg h4,
        if_neg (fun hc => h5 hc.1), if_neg (fun hc => h6 hc.1)]
      rw [hbd]

/-- C9 witness: re-entry on the current path yields the placeholder, and on
the concrete cyclic pair `A(b: B)`, `B(a: A)` the synthesizer terminates
with the inner recursive position replaced by the panic placeholder. -/
theorem default_value_synthesis_witness :
    (1 : Nat) ≠ 0 ∧
    (SynthState.mk [] false [("m", "C")]).visited.contains
        ((none : Option String).getD "m", "C") = true ∧
    ((∃ res st', build_default_for_custom_type (exLookupAB.length + 1) exA.module_path
        exA.name exA.module_path exLookupAB ⟨[], false, []⟩ = .ok (res, st') ∧
      default_value_for_type exA exLookupAB [] false =
        (res.getD (panic_default_message exA.name), st'.imports,
          st'.uses_option_helpers)) ∧
    default_value_for_type_expr (build_default_for_custom_type 1) "m" "m" exLookupAB
        (.Constructor none "C" []) ⟨[], false, [("m", "C")]⟩ =
      .ok (panic_default_message
        (if (none : Option String).getD "m" = "m" then "C"
         else replaceStr ((none : Option String).getD "m") "/" "." ++ "." ++ "C"),
        ⟨[], false, [("m", "C")]⟩)) ∧
    default_value_for_type exA exLookupAB [] false =
      ("A(b: B(a: panic(\"No default value for A\")))", [], false) :=
  ⟨by decide, by decide,
    default_value_synthesis exLookupAB exA [] false 1 "C" "m" "m" none []
      ⟨[], false, [("m", "C")]⟩ (by decide) (by decide) (by decide) (by decide)
      (by decide) (by decide) (by decide) (by decide),
    by decide⟩


theorem used_fold_encs_json (encs : List EncoderType) (acc : List EncoderType)
    (h : acc = [.Json]) :
    encs.foldl (fun acc et => if acc.contains et then acc else acc ++ [et]) acc =
      [.Json] := by
  induction encs generalizing acc with
  | nil => exact h
  | cons et rest ih =>
    rw [List.foldl_cons]
    refine ih _ ?_
    cases et
    rw [h]
    simp

theorem used_fold_encs_pres (encs : List EncoderType) (acc : List EncoderType)
    (h : acc = [] ∨ acc = [.Json]) :
    (encs.foldl (fun acc et => if acc.contains et then acc else acc ++ [et]) acc = [] ∨
      encs.foldl (fun acc et => if acc.contains et then acc else acc ++ [et]) acc =
        [.Json]) ∧
    (encs ≠ [] →
      encs.foldl (fun acc et => if acc.contains et then acc else acc ++ [et]) acc =
        [.Json]) := by
  cases encs with
  | nil => exact ⟨h, fun hne => absurd rfl hne⟩
  | cons et rest =>
    have hstep : (if acc.contains et then acc else acc ++ [et]) = [.Json] := by
      cases et
      rcases h with h | h <;> rw [h] <;> simp
    rw [List.foldl_cons, hstep]
    have := used_fold_encs_json rest [.Json] rfl
    exact ⟨Or.inr this, fun _ => this⟩

theorem used_fold_types_json (types : List CustomTypeInfo) (acc : List EncoderType)
    (h : acc = [.Json]) :
    types.foldl
        (fun acc ti =>
          ti.encoders.foldl (fun acc et => if acc.contains et then acc else acc ++ [et])
            acc)
        acc = [.Json] := by
  induction types generalizing acc with
  | nil => exact h
  | cons ti rest ih =>
    rw [List.foldl_cons]
    exact ih _ (used_fold_encs_json ti.encoders acc h)

theorem used_fold_types_pres (types : List CustomTypeInfo) (acc : List EncoderType)
    (h : acc = [] ∨ acc = [.Json]) :
    (types.foldl
        (fun acc ti =>
          ti.encoders.foldl (fun acc et => if acc.contains et then acc else acc ++ [et])
            acc)
        acc = [] ∨
      types.foldl
        (fun acc ti =>
          ti.encoders.foldl (fun acc et => if acc.contains et then acc else acc ++ [et])
            acc)
        acc = [.Json]) ∧
    (types.any (fun ti => ¬ ti.encoders.isEmpty) = true →
      types.foldl
        (fun acc ti =>
          ti.encoders.foldl (fun acc et => if acc.contains et then acc else acc ++ [et])
            acc)
        acc = [.Json]) := by
  induction types generalizing acc with
  | nil => exact ⟨h, by simp⟩
  | cons ti rest ih =>
    rw [List.foldl_cons]
    have hpres := used_fold_encs_pres ti.encoders acc h
    constructor
    · exact (ih _ hpres.1).1
    · intro hany
      simp only [List.any_cons, Bool.or_eq_true] at hany
      rcases hany with hti | hrest
      · have hne : ti.encoders ≠ [] := by
          intro he
          rw [he] at hti
          simp at hti
        exact used_fold_types_json rest _ (hpres.2 hne)
      · exact (ih _ hpres.1).2 hrest

theorem used_fold_files_json (files : List FileInput) (acc : List EncoderType)
    (h : acc = [.Json]) :
    files.foldl
        (fun acc f =>
          f.types.foldl
            (fun acc ti =>
              ti.encoders.foldl
                (fun acc et => if acc.contains et then acc else acc ++ [et]) acc)
            acc)
        acc = [.Json] := by
  induction files generalizing acc with
  | nil => exact h
  | cons f rest ih =>
    rw [List.foldl_cons]
    exact ih _ (used_fold_types_json f.types acc h)

theorem used_fold_files_pres (files : List FileInput) (acc : List EncoderType)
    (h : acc = [] ∨ acc = [.Json]) :
    (files.any (fun f => f.types.any (fun ti => ¬ ti.encoders.isEmpty)) = true →
      files.foldl
        (fun acc f =>
          f.types.foldl
            (fun acc ti =>
              ti.encoders.foldl
                (fun acc et => if acc.contains et then acc else acc ++ [et]) acc)
            acc)
        acc = [.Json]) := by
  induction files generalizing acc with
  | nil => simp
  | cons f rest ih =>
    intro hany
    rw [List.foldl_cons]
    simp only [List.any_cons, Bool.or_eq_true] at hany
    rcases hany with hf | hrest
    · exact used_fold_files_json rest _ ((used_fold_types_pres f.types acc h).2 hf)
    · exact ih _ (used_fold_types_pres f.types acc h).1 hrest

/-- When some type requests an encoder, the set of distinct requested
backends is exactly the single built-in `Json` backend. -/
theorem used_encoder_types_json (files : List FileInput)
    (h : has_generated_encoders files = true) :
    used_encoder_types files = [.Json] := by
  unfold used_encoder_types
  unfold has_generated_encoders at h
  exact used_fold_files_pres files [] (Or.inl rfl) h

/-- C7 (amended).  If some type requests an encoder backend and a package
required by that backend (for the built-in JSON backend: `gleam/json`) is
present in neither the manifest's primary nor its dev dependency table,
`generate_for_project` fails before any decoder or encoder code is
generated, with a `GenerationError` naming the missing package; if every
required package is present in at least one of the two tables, the
dependency check succeeds. -/
theorem backend_dependency_precondition (files : List FileInput)
    (manifest : GleamManifest)
    (henc : has_generated_encoders files = true)
    (h1 : manifest.dependencies.contains "gleam/json" = false)
    (h2 : manifest.dev_dependencies.contains "gleam/json" = false) :
    generate_for_project files manifest newBackendRegistry =
      .error (.GenerationError depJsonMsg) ∧
    containsStr depJsonMsg "gleam/json" = true ∧
    (∀ m2 : GleamManifest,
      (m2.dependencies.contains "gleam/json" ||
        m2.dev_dependencies.contains "gleam/json") = true →
      ensure_backend_dependencies m2 jsonBackend = .ok ()) := by
  refine ⟨?_, by decide, ?_⟩
  · have hused := used_encoder_types_json files henc
    have he : ensure_backend_dependencies manifest jsonBackend =
        .error (.GenerationError depJsonMsg) := by
      rw [ensure_backend_dependencies]
      rw [if_neg (by simp [jsonBackend])]
      show ensure_required_packages manifest ["gleam/json"] = _
      rw [ensure_required_packages]
      simp only [dependency_table_contains, h1, h2, Bool.or_false]
      rfl
    have hcheck : check_used_backends manifest newBackendRegistry [.Json] =
        .error (.GenerationError depJsonMsg) := by
      rw [check_used_backends]
      show (do
        ensure_backend_dependencies manifest jsonBackend
        check_used_backends manifest newBackendRegistry []) = _
      rw [he]
      rfl
    unfold generate_for_project
    rw [hused]
    simp only [henc, if_true, hcheck]
    rfl
  · intro m2 hm
    rw [ensure_backend_dependencies]
    rw [if_neg (by simp [jsonBackend])]
    show ensure_required_packages m2 ["gleam/json"] = _
    rw [ensure_required_packages]
    simp only [dependency_table_contains, hm]
    rw [ensure_required_packages]
    rfl

/-- C7 witness: a project with one JSON-annotated type against an empty
manifest fails with the `gleam/json` message; the same backend check accepts
a manifest that lists `gleam/json` only under dev-dependencies. -/
theorem backend_dependency_precondition_witness :
    has_generated_encoders
        [⟨"src/sample.gleam", Config.default, ⟨none, none, none⟩, [exMixed]⟩] = true ∧
    (GleamManifest.mk [] []).dependencies.contains "gleam/json" = false ∧
    (GleamManifest.mk [] []).dev_dependencies.contains "gleam/json" = false ∧
    (generate_for_project
        [⟨"src/sample.gleam", Config.default, ⟨none, none, none⟩, [exMixed]⟩]
        ⟨[], []⟩ newBackendRegistry = .error (.GenerationError depJsonMsg) ∧
      containsStr depJsonMsg "gleam/json" = true ∧
      (∀ m2 : GleamManifest,
        (m2.dependencies.contains "gleam/json" ||
          m2.dev_dependencies.contains "gleam/json") = true →
        ensure_backend_dependencies m2 jsonBackend = .ok ())) ∧
    ensure_backend_dependencies ⟨[], ["gleam/json"]⟩ jsonBackend = .ok () :=
  ⟨by decide, by decide, by decide,
    backend_dependency_precondition
      [⟨"src/sample.gleam", Config.default, ⟨none, none, none⟩, [exMixed]⟩]
      ⟨[], []⟩ (by decide) (by decide) (by decide),
    by decide⟩


end Gloss
